import Mathlib

/-!
# Verification of the ai-code-waste-detector core

Shallow embedding of the core analysis subsystems of the
`ai-code-waste-detector` repository (scanner, duplication detector,
provenance scorer, engine result assembly), together with proofs and
refutations of the specification claims.

Modelling conventions:
* Python's `ast` node kinds used by the code are embedded as a typed
  tagged union (`PyExpr` / `PyStmt`), as §9 of the specification itself
  prescribes.  `ast.parse` is Python's own parser and is external to the
  repository; an entity therefore carries its parse result
  (`parsed : Option (List PyStmt)`, `none` modelling a `SyntaxError`)
  as data alongside the raw source text.
* Python `float` arithmetic is modelled by exact fractions (the `Q` type
  below).  All weights, thresholds and ratios in the code are small decimal
  values, and every comparison proved or refuted here is far from any
  double-rounding boundary.  `round(x, n)` is modelled by
  round-half-to-even on the exact value.
* Python strings are processed as `List Char`; the regular expressions in
  the code are embedded as explicit character scanners implementing their
  (deterministic) matching behaviour.  Line splitting is modelled on
  `'\n'`, the only line terminator occurring in the inputs considered.
-/

namespace AiWaste

/-! ## Character classes (mirroring Python `re` on ASCII input)

`\w` is `[A-Za-z0-9_]`; `\s` is `[ \t\n\r\f\v]`; identifier characters in
the script-language regexes are `[A-Za-z_$]` / `[\w$]`. -/

def isWordChar (c : Char) : Bool :=
  (('a' ≤ c && c ≤ 'z') || ('A' ≤ c && c ≤ 'Z') || ('0' ≤ c && c ≤ '9') || c = '_')

def isSpaceCh (c : Char) : Bool :=
  c = ' ' || c = '\t' || c = '\n' || c = '\x0d' || c = '\x0c' || c = '\x0b'

def isDigitCh (c : Char) : Bool := '0' ≤ c && c ≤ '9'

def isIdentStart (c : Char) : Bool :=
  (('a' ≤ c && c ≤ 'z') || ('A' ≤ c && c ≤ 'Z') || c = '_' || c = '$')

def isIdentCont (c : Char) : Bool := isWordChar c || c = '$'

/-- The left-brace character, written via its code point. -/
def lbrace : Char := Char.ofNat 123

/-- The right-brace character, written via its code point. -/
def rbrace : Char := Char.ofNat 125

/-- The backquote (template-literal quote) character. -/
def backquote : Char := Char.ofNat 96

/-- The apostrophe (single-quote) character. -/
def apos : Char := Char.ofNat 39

/-! ## Exact rationals modelling Python floats

Python `float` arithmetic is modelled by exact fractions with a positive
denominator, kept unnormalised (all comparisons are by cross
multiplication, so normalisation is irrelevant); the library `Rat` type is
not used because its arithmetic is irreducible to kernel evaluation.  All
weights, thresholds and ratios in the code are small decimals, and every
comparison proved or refuted here is far from any double-rounding
boundary of the binary floats they model. -/

structure Q where
  num : Int
  den : Nat
  den_pos : 0 < den

instance : DecidableEq Q := fun a b =>
  decidable_of_iff (a.num = b.num ∧ a.den = b.den) (by cases a; cases b; simp)

instance : Repr Q := ⟨fun q _ => repr q.num ++ " /. " ++ repr q.den⟩

/-- Build a fraction; a zero denominator (never produced by the code)
falls back to denominator 1. -/
def qmk (n : Int) (d : Nat) : Q :=
  if h : 0 < d then ⟨n, d, h⟩ else ⟨n, 1, Nat.one_pos⟩

/-- The fraction `n / 1`. -/
def qnat (n : Nat) : Q := ⟨n, 1, Nat.one_pos⟩

/-- `a ≤ b` by cross multiplication. -/
def Q.le (a b : Q) : Prop := a.num * (b.den : Int) ≤ b.num * (a.den : Int)

/-- `a < b` by cross multiplication. -/
def Q.lt (a b : Q) : Prop := a.num * (b.den : Int) < b.num * (a.den : Int)

/-- `a ≥ b`, written with the operands in source order. -/
def Q.ge (a b : Q) : Prop := Q.le b a

instance (a b : Q) : Decidable (Q.le a b) := by unfold Q.le; infer_instance

instance (a b : Q) : Decidable (Q.lt a b) := by unfold Q.lt; infer_instance

instance (a b : Q) : Decidable (Q.ge a b) := by unfold Q.ge; infer_instance

/-- Addition. -/
def Q.add (a b : Q) : Q :=
  ⟨a.num * b.den + b.num * a.den, a.den * b.den, Nat.mul_pos a.den_pos b.den_pos⟩

/-- Subtraction. -/
def Q.sub (a b : Q) : Q :=
  ⟨a.num * b.den - b.num * a.den, a.den * b.den, Nat.mul_pos a.den_pos b.den_pos⟩

/-- Multiplication. -/
def Q.mul (a b : Q) : Q := ⟨a.num * b.num, a.den * b.den, Nat.mul_pos a.den_pos b.den_pos⟩

/-- Division (a zero divisor, which the code never produces, yields 0). -/
def Q.div (a b : Q) : Q :=
  if hz : b.num = 0 then ⟨0, 1, Nat.one_pos⟩
  else
    ⟨(if b.num < 0 then -(a.num * b.den) else a.num * b.den), a.den * b.num.natAbs,
      Nat.mul_pos a.den_pos (Int.natAbs_pos.mpr hz)⟩

/-- Python `min` (returns the first argument on ties). -/
def Q.pymin (a b : Q) : Q := if Q.le a b then a else b

/-- Python `max` (returns the first argument on ties). -/
def Q.pymax (a b : Q) : Q := if Q.ge a b then a else b

/-- `⌊x⌋` (Euclidean division by the positive denominator). -/
def qfloor (x : Q) : Int := x.num.ediv x.den

/-- Round-half-to-even to an integer, the rounding Python's `round`
applies to the exact value of its argument. -/
def roundHalfEven (x : Q) : Int :=
  let f := qfloor x
  let r2 := 2 * (x.num - f * x.den)
  if r2 < (x.den : Int) then f
  else if (x.den : Int) < r2 then f + 1
  else if f % 2 = 0 then f else f + 1

/-- Python `round(x, 2)` on the exact value. -/
def round2 (x : Q) : Q := ⟨roundHalfEven (x.mul (qnat 100)), 100, by decide⟩

/-- Python `round(x, 3)` on the exact value. -/
def round3 (x : Q) : Q := ⟨roundHalfEven (x.mul (qnat 1000)), 1000, by decide⟩

theorem Q.lt_of_lt_of_le {a b c : Q} (h1 : Q.lt a b) (h2 : Q.le b c) : Q.lt a c := by
  unfold Q.lt at h1 ⊢
  unfold Q.le at h2
  have ha : (0 : Int) < a.den := by exact_mod_cast a.den_pos
  have hb : (0 : Int) < b.den := by exact_mod_cast b.den_pos
  have hc : (0 : Int) < c.den := by exact_mod_cast c.den_pos
  nlinarith [mul_lt_mul_of_pos_right h1 hc, mul_le_mul_of_nonneg_right h2 (le_of_lt ha)]

theorem Q.le_trans {a b c : Q} (h1 : Q.le a b) (h2 : Q.le b c) : Q.le a c := by
  unfold Q.le at h1 h2 ⊢
  have ha : (0 : Int) < a.den := by exact_mod_cast a.den_pos
  have hb : (0 : Int) < b.den := by exact_mod_cast b.den_pos
  have hc : (0 : Int) < c.den := by exact_mod_cast c.den_pos
  nlinarith [mul_le_mul_of_nonneg_right h1 (le_of_lt hc),
    mul_le_mul_of_nonneg_right h2 (le_of_lt ha)]

/-! ## Python AST model

Typed tagged union over the `ast` node kinds inspected by the repository
(`If`, `Return`, `Raise`, `Name`, `Constant`, `Attribute`, `FunctionDef`,
`AsyncFunctionDef`, `ClassDef`, `For`, `While`, `Try`, assignment,
expression statements and `Pass`).  The `arguments` node is modelled by
the list of its argument names, the only part the code ever rewrites. -/

inductive PyCtx where
  | load
  | store
  | del
deriving Repr, DecidableEq

inductive PyConst where
  | pstr (s : String)
  | pnum (q : Q)
  | pbool (b : Bool)
  | pnone
deriving Repr, DecidableEq

mutual
inductive PyExpr where
  | pyname (id : String) (ctx : PyCtx)
  | const (v : PyConst)
  | attr (value : PyExpr) (attrName : String) (ctx : PyCtx)
  | call (func : PyExpr) (args : List PyExpr)
  | binop (op : String) (left right : PyExpr)
  | cmp (op : String) (left right : PyExpr)
deriving Repr

inductive PyStmt where
  | funcDef (name : String) (args : List String) (body : List PyStmt) (isAsync : Bool)
  | classDef (name : String) (body : List PyStmt)
  | ifStmt (test : PyExpr) (body orelse : List PyStmt)
  | ret (value : Option PyExpr)
  | raiseStmt (exc : Option PyExpr)
  | assign (targets : List PyExpr) (value : PyExpr)
  | exprStmt (value : PyExpr)
  | forStmt (target iterExpr : PyExpr) (body orelse : List PyStmt)
  | whileStmt (test : PyExpr) (body orelse : List PyStmt)
  | tryStmt (body : List PyStmt) (handlers : List (List PyStmt)) (orelse finalBody : List PyStmt)
  | pass
deriving Repr
end

mutual
/-- All expression nodes of a subtree rooted at an expression, the root
included — the expression part of `ast.walk` (only node counts and
collected attributes are ever used, so the traversal order is
irrelevant). -/
def exprWalk : PyExpr → List PyExpr
  | .pyname id ctx => [.pyname id ctx]
  | .const v => [.const v]
  | .attr value a ctx => .attr value a ctx :: exprWalk value
  | .call func args => .call func args :: (exprWalk func ++ exprWalkList args)
  | .binop op l r => .binop op l r :: (exprWalk l ++ exprWalk r)
  | .cmp op l r => .cmp op l r :: (exprWalk l ++ exprWalk r)

/-- All expression nodes of the subtrees rooted at a list of expressions. -/
def exprWalkList : List PyExpr → List PyExpr
  | [] => []
  | e :: rest => exprWalk e ++ exprWalkList rest
end

mutual
/-- All statement nodes of the subtree rooted at a statement, the root
included — the statement part of `ast.walk`. -/
def stmtWalk : PyStmt → List PyStmt
  | .funcDef n a body async => .funcDef n a body async :: stmtWalkList body
  | .classDef n body => .classDef n body :: stmtWalkList body
  | .ifStmt t body orelse => .ifStmt t body orelse :: (stmtWalkList body ++ stmtWalkList orelse)
  | .ret v => [.ret v]
  | .raiseStmt e => [.raiseStmt e]
  | .assign ts v => [.assign ts v]
  | .exprStmt v => [.exprStmt v]
  | .forStmt t i body orelse =>
      .forStmt t i body orelse :: (stmtWalkList body ++ stmtWalkList orelse)
  | .whileStmt t body orelse =>
      .whileStmt t body orelse :: (stmtWalkList body ++ stmtWalkList orelse)
  | .tryStmt body handlers orelse finalBody =>
      .tryStmt body handlers orelse finalBody ::
        (stmtWalkList body ++ stmtWalkListList handlers ++ stmtWalkList orelse ++
          stmtWalkList finalBody)
  | .pass => [.pass]

/-- All statement nodes of the subtrees rooted at a list of statements. -/
def stmtWalkList : List PyStmt → List PyStmt
  | [] => []
  | s :: rest => stmtWalk s ++ stmtWalkList rest

/-- All statement nodes under a list of statement lists (`Try` handlers). -/
def stmtWalkListList : List (List PyStmt) → List PyStmt
  | [] => []
  | l :: rest => stmtWalkList l ++ stmtWalkListList rest
end

/-- The direct expression fields of one statement node (not recursing into
child statements); composing with `stmtWalk` and `exprWalk` yields every
expression node of `ast.walk`, each exactly once. -/
def stmtTopExprs : PyStmt → List PyExpr
  | .funcDef _ _ _ _ => []
  | .classDef _ _ => []
  | .ifStmt t _ _ => [t]
  | .ret v => v.toList
  | .raiseStmt e => e.toList
  | .assign ts v => ts ++ [v]
  | .exprStmt v => [v]
  | .forStmt t i _ _ => [t, i]
  | .whileStmt t _ _ => [t]
  | .tryStmt _ _ _ _ => []
  | .pass => []

/-- Every expression node occurring in the `ast.walk` of a statement list. -/
def allExprNodes (body : List PyStmt) : List PyExpr :=
  ((stmtWalkList body).flatMap stmtTopExprs).flatMap exprWalk

/-! ## Data model (`models.py`) -/

/-- `models.CodeEntity`, plus the result of `ast.parse(source)` carried as
data (`none` models a `SyntaxError`); the Python parser itself is external
to the repository and both `provenance._first_function_node` and
`duplication._first_function_node` start from its output. -/
structure CodeEntity where
  entity_id : String
  file_path : String
  function_name : String
  qualified_name : String
  lineno : Nat
  end_lineno : Nat
  source : String
  parsed : Option (List PyStmt)
deriving Repr

/-- `models.AIProvenanceSignal`. -/
structure AIProvenanceSignal where
  entity_id : String
  ai_probability : Q
  confidence : String
  signals : List String
deriving Repr, DecidableEq

/-- `models.GitProvenanceEvidence`.  The optional integer statistics are
modelled by `Option Nat` (the collector only ever produces non-negative
counts) and the concentration by `Option Q`. -/
structure GitProvenanceEvidence where
  entity_id : String
  available : Bool
  blame_commit_count : Option Nat := none
  blame_author_count : Option Nat := none
  line_commit_concentration : Option Q := none
  last_commit_age_days : Option Nat := none
  file_commit_count : Option Nat := none
  file_author_count : Option Nat := none
deriving Repr, DecidableEq

/-- `models.DuplicationPair`. -/
structure DuplicationPair where
  entity_a : String
  entity_b : String
  semantic_overlap : Q
  confidence : String
deriving Repr, DecidableEq

/-! ## Small string helpers -/

/-- `sub.isInfixOf hay` on character lists: some contiguous run of `hay`
equals `sub` (used for Python's `needle in string`). -/
def listIsInfix (sub hay : List Char) : Bool :=
  match hay with
  | [] => sub.isEmpty
  | _ :: rest => sub.isPrefixOf hay || listIsInfix sub rest

/-- Python `needle in hay` for strings. -/
def strContains (hay needle : String) : Bool :=
  listIsInfix needle.toList hay.toList

/-- ASCII lower-casing of one character. -/
def lowerCh (c : Char) : Char :=
  if 'A' ≤ c && c ≤ 'Z' then Char.ofNat (c.toNat + 32) else c

/-- Python `str.lower()` (the sources considered are ASCII). -/
def pyLower (s : String) : String := String.mk (s.toList.map lowerCh)

/-- Split a character list at a separator character (Python
`str.split(sep)` for a one-character separator). -/
def splitOnCh (sep : Char) (cs : List Char) : List (List Char) :=
  match cs with
  | [] => [[]]
  | c :: rest =>
      let tailSplit := splitOnCh sep rest
      if c = sep then [] :: tailSplit
      else
        match tailSplit with
        | [] => [[c]]
        | p :: ps => (c :: p) :: ps

/-- Join string parts with a separator (Python `sep.join(parts)`). -/
def joinWith (sep : String) : List String → String
  | [] => ""
  | [p] => p
  | p :: rest => p ++ sep ++ joinWith sep rest

/-- Decimal rendering of a natural number (Python `str(n)`). -/
def natToStr (n : Nat) : String :=
  String.mk (go n n [])
where
  digitCh (d : Nat) : Char := Char.ofNat (48 + d)
  go : Nat → Nat → List Char → List Char
    | 0, n, acc => if acc.isEmpty then [digitCh (n % 10)] else acc
    | fuel + 1, n, acc =>
        if n = 0 then (if acc.isEmpty then ['0'] else acc)
        else go fuel (n / 10) (digitCh (n % 10) :: acc)

/-- Decimal rendering of an integer (Python `str(n)`). -/
def intToStr (n : Int) : String :=
  if n < 0 then "-" ++ natToStr n.natAbs else natToStr n.natAbs

/-- Count of distinct elements, Python `len(set(xs))`. -/
def distinctCount (xs : List String) : Nat := xs.dedup.length

/-! ## Provenance scorer (`provenance.py`) — native-AST feature functions -/

namespace Provenance

/-- `provenance.GENERIC_VARIABLE_NAMES`. -/
def GENERIC_VARIABLE_NAMES : List String :=
  ["data", "input", "output", "result", "value", "item", "obj",
   "response", "request", "temp", "payload"]

/-- A function definition as extracted by `_first_function_node`. -/
structure FuncNode where
  name : String
  args : List String
  body : List PyStmt
  isAsync : Bool
deriving Repr

/-- `provenance._first_function_node`: the first top-level function
definition of the parsed module (`none` when the source failed to parse or
contains no top-level function). -/
def firstFunctionNode (parsed : Option (List PyStmt)) : Option FuncNode :=
  match parsed with
  | none => none
  | some body => go body
where
  go : List PyStmt → Option FuncNode
    | [] => none
    | .funcDef n a b async :: _ => some ⟨n, a, b, async⟩
    | _ :: rest => go rest

/-- `provenance._statement_count`. -/
def statementCount (f : FuncNode) : Nat := f.body.length

/-- Is this statement a `Return` or `Raise`? -/
def isReturnOrRaise : PyStmt → Bool
  | .ret _ => true
  | .raiseStmt _ => true
  | _ => false

/-- The loop body of `provenance._guard_clause_count`: scan the statements
in order, stopping (`break`) at the first statement that is not an `If`
with a single-statement body; a surviving `If` counts only when its single
body statement is a `Return`/`Raise`. -/
def guardClauseLoop : List PyStmt → Nat
  | .ifStmt _ [b] _ :: rest =>
      (if isReturnOrRaise b then 1 else 0) + guardClauseLoop rest
  | _ => 0

/-- `provenance._guard_clause_count` (the loop ranges over
`function_node.body[:6]`). -/
def guardClauseCount (f : FuncNode) : Nat := guardClauseLoop (f.body.take 6)

/-- The `Store`-context `Name` identifiers (lowercased) collected by
`provenance._variable_name_ratio`'s walk. -/
def storeNames (f : FuncNode) : List String :=
  (allExprNodes f.body).filterMap fun e =>
    match e with
    | .pyname id .store => some (pyLower id)
    | _ => none

/-- `provenance._variable_name_ratio`. -/
def variableNameRatio (f : FuncNode) : Q :=
  let names := storeNames f
  if names.isEmpty then qnat 0
  else Q.div (qnat (names.countP (fun n => GENERIC_VARIABLE_NAMES.contains n)))
    (qnat names.length)

/-- Is this statement an `ast.If` node? -/
def isIfStmt : PyStmt → Bool
  | .ifStmt _ _ _ => true
  | _ => false

/-- The number of `ast.If` nodes found by `ast.walk(function_node)` — the
walk starts at the function node itself (never an `If`) and descends into
every nested statement, so nested conditionals are counted too. -/
def walkIfCount (f : FuncNode) : Nat :=
  (stmtWalkList f.body).countP (fun s => isIfStmt s)

/-- `provenance._defensive_density`. -/
def defensiveDensity (f : FuncNode) : Q :=
  Q.div (qnat (walkIfCount f)) (qnat (max (statementCount f) 1))

/-- The lowercased error-like string constants collected by
`provenance._repetitive_error_messages`. -/
def errorLikeStrings (f : FuncNode) : List String :=
  (allExprNodes f.body).filterMap fun e =>
    match e with
    | .const (.pstr s) =>
        let lowered := pyLower s
        if strContains lowered "error" || strContains lowered "invalid" ||
            strContains lowered "fail" then some lowered else none
    | _ => none

/-- `provenance._repetitive_error_messages`. -/
def repetitiveErrorMessages (f : FuncNode) : Bool :=
  let errorLike := errorLikeStrings f
  decide (2 ≤ errorLike.length) && decide (distinctCount errorLike ≤ errorLike.length / 2 + 1)

/-- `provenance._generic_return_pattern`. -/
def genericReturnPattern (f : FuncNode) : Bool :=
  match f.body.getLast? with
  | some (.ret (some (.pyname id _))) => GENERIC_VARIABLE_NAMES.contains (pyLower id)
  | _ => false

/-- Is this statement a `For`, `While` or `Try` node? -/
def isLoopOrTry : PyStmt → Bool
  | .forStmt _ _ _ _ => true
  | .whileStmt _ _ _ => true
  | .tryStmt _ _ _ _ => true
  | _ => false

/-- `any(isinstance(node, (ast.For, ast.While, ast.Try)) for node in
ast.walk(function_node))`. -/
def hasLoopOrTry (f : FuncNode) : Bool :=
  (stmtWalkList f.body).any (fun s => isLoopOrTry s)

/-- `provenance._apply_git_adjustments`, returning the adjusted score and
the (functionally updated) signal-label list the Python code mutates in
place. -/
def applyGitAdjustments (score : Q) (signals : List String)
    (git_evidence : Option GitProvenanceEvidence) : Q × List String :=
  match git_evidence with
  | none => (score, signals)
  | some ev =>
    if !ev.available then (score, signals)
    else
      let concentration : Q := ev.line_commit_concentration.getD (qnat 0)
      let blame_commit_count : Nat := ev.blame_commit_count.getD 0
      let blame_author_count : Nat := ev.blame_author_count.getD 0
      let last_age_days : Nat := ev.last_commit_age_days.getD 0
      let file_commit_count : Nat := ev.file_commit_count.getD 0
      let file_author_count : Nat := ev.file_author_count.getD 0
      let s1 := if Q.ge concentration (qmk 85 100) ∧ blame_commit_count ≤ 2 then
          (Q.add score (qmk 1 10), signals ++ ["single-source commit concentration"])
        else (score, signals)
      let s2 := if last_age_days ≤ 45 ∧ blame_commit_count ≤ 3 then
          (Q.add s1.1 (qmk 5 100), s1.2 ++ ["recent introduction window"]) else s1
      let s3 := if file_author_count ≤ 1 ∧ file_commit_count ≤ 3 then
          (Q.add s2.1 (qmk 5 100), s2.2 ++ ["low-author diversity file"]) else s2
      let s4 := if blame_commit_count ≥ 6 then (Q.sub s3.1 (qmk 1 10), s3.2) else s3
      let s5 := if blame_author_count ≥ 3 then (Q.sub s4.1 (qmk 1 10), s4.2) else s4
      let s6 := if last_age_days ≥ 365 then (Q.sub s5.1 (qmk 5 100), s5.2) else s5
      s6

end Provenance

/-! ## Script-text scanners

Explicit character scanners implementing the regular expressions the code
applies to lexically-scanned (JS/TS) sources.  Each scanning loop carries a
fuel argument initialised to the input length; every iteration consumes at
least one character, so the fuel never runs out on the initial call. -/

namespace ScriptScan

/-- Match the tail of a string literal after its opening quote `q`
(`(?:\\.|[^q\\])*q`): returns the literal's body (escape sequences kept
verbatim) and the remaining input after the closing quote, or `none` when
the literal is unterminated. -/
def matchStringLit (q : Char) : List Char → Option (List Char × List Char)
  | [] => none
  | '\\' :: [] => none
  | '\\' :: c :: rest =>
      match matchStringLit q rest with
      | some (body, after) => some ('\\' :: c :: body, after)
      | none => none
  | c :: rest =>
      if c = q then some ([], rest)
      else
        match matchStringLit q rest with
        | some (body, after) => some (c :: body, after)
        | none => none

/-- Is this character one of the three string-literal quotes
(`"`, `'`, backquote)? -/
def isQuoteCh (c : Char) : Bool := c = '"' || c = apos || c = backquote

/-- `_SCRIPT_COMMENT_RE.sub("", s)`: remove `//...`-to-end-of-line and
`/*...*/` comments; an unterminated `/*` matches nothing and is kept, and
the newline ending a line comment is kept (the `$` anchor matches before
it). -/
def stripCommentsGo : Nat → List Char → List Char
  | 0, _ => []
  | _, [] => []
  | fuel + 1, '/' :: '/' :: rest => stripCommentsGo fuel (rest.dropWhile (· ≠ '\n'))
  | fuel + 1, '/' :: '*' :: rest =>
      match findStarSlash rest with
      | some after => stripCommentsGo fuel after
      | none => '/' :: stripCommentsGo fuel ('*' :: rest)
  | fuel + 1, c :: rest => c :: stripCommentsGo fuel rest
where
  findStarSlash : List Char → Option (List Char)
    | [] => none
    | '*' :: '/' :: rest => some rest
    | _ :: rest => findStarSlash rest

/-- Comment stripping (`_SCRIPT_COMMENT_RE.sub("", source)`), shared by
`provenance._strip_script_comments` and the duplication normalizer. -/
def stripComments (cs : List Char) : List Char := stripCommentsGo cs.length cs

/-- `_SCRIPT_STRING_RE.findall(source)`: every string literal (quotes
included), scanning left to right, unterminated openers skipped. -/
def findStringLits : Nat → List Char → List (List Char)
  | 0, _ => []
  | _, [] => []
  | fuel + 1, c :: rest =>
      if isQuoteCh c then
        match matchStringLit c rest with
        | some (body, after) => (c :: body ++ [c]) :: findStringLits fuel after
        | none => findStringLits fuel rest
      else findStringLits fuel rest

/-- `_SCRIPT_STRING_RE.sub(repl, source)`. -/
def replaceStringLits (repl : List Char) : Nat → List Char → List Char
  | 0, _ => []
  | _, [] => []
  | fuel + 1, c :: rest =>
      if isQuoteCh c then
        match matchStringLit c rest with
        | some (_, after) => repl ++ replaceStringLits repl fuel after
        | none => c :: replaceStringLits repl fuel rest
      else c :: replaceStringLits repl fuel rest

/-- Does some keyword of `kws` (tried in order) match at the head of `cs`
with a word boundary after it?  Returns the keyword. -/
def matchKeywordHere (kws : List (List Char)) (cs : List Char) : Option (List Char) :=
  match kws with
  | [] => none
  | kw :: more =>
      if kw.isPrefixOf cs then
        match cs.drop kw.length with
        | [] => some kw
        | c :: _ => if isWordChar c then matchKeywordHere more cs else some kw
      else matchKeywordHere more cs

/-- `len(re.findall(r"\b(kw1|kw2|...)\b", s))`: count non-overlapping
word-bounded keyword occurrences.  `prevWord` records whether the previous
character was a word character (no boundary). -/
def countKeywordsGo (kws : List (List Char)) : Nat → Bool → List Char → Nat
  | 0, _, _ => 0
  | _, _, [] => 0
  | fuel + 1, prevWord, c :: rest =>
      if prevWord then countKeywordsGo kws fuel (isWordChar c) rest
      else
        match matchKeywordHere kws (c :: rest) with
        | some kw => 1 + countKeywordsGo kws fuel true ((c :: rest).drop kw.length)
        | none => countKeywordsGo kws fuel (isWordChar c) rest

/-- Count of word-bounded keyword matches in a string. -/
def countKeywords (kws : List String) (cs : List Char) : Nat :=
  countKeywordsGo (kws.map String.toList) cs.length false cs

/-- Greedy `[A-Za-z_$][\w$]*` at the head of the input: the identifier and
the rest, or `none`. -/
def matchIdent : List Char → Option (List Char × List Char)
  | [] => none
  | c :: rest =>
      if isIdentStart c then
        some (c :: rest.takeWhile isIdentCont, rest.dropWhile isIdentCont)
      else none

/-- `_SCRIPT_DECLARATION_RE.findall(source)`: the identifiers following a
word-bounded `const`/`let`/`var` and at least one whitespace character. -/
def declNamesGo : Nat → Bool → List Char → List String
  | 0, _, _ => []
  | _, _, [] => []
  | fuel + 1, prevWord, c :: rest =>
      if prevWord then declNamesGo fuel (isWordChar c) rest
      else
        match matchKeywordHere [['c','o','n','s','t'], ['l','e','t'], ['v','a','r']] (c :: rest) with
        | some kw =>
            let afterKw := (c :: rest).drop kw.length
            let ws := afterKw.takeWhile isSpaceCh
            if ws.isEmpty then declNamesGo fuel (isWordChar c) rest
            else
              match matchIdent (afterKw.dropWhile isSpaceCh) with
              | some (name, after) =>
                  String.mk name :: declNamesGo fuel (isWordChar (name.getLastD ' ')) after
              | none => declNamesGo fuel (isWordChar c) rest
        | none => declNamesGo fuel (isWordChar c) rest

/-- `_SCRIPT_DECLARATION_RE.findall(source)`. -/
def declNames (cs : List Char) : List String := declNamesGo cs.length false cs

/-- `len(re.findall(r"\bif\s*\(", source))`. -/
def countIfParenGo : Nat → Bool → List Char → Nat
  | 0, _, _ => 0
  | _, _, [] => 0
  | fuel + 1, prevWord, c :: rest =>
      if prevWord then countIfParenGo fuel (isWordChar c) rest
      else
        if ['i', 'f'].isPrefixOf (c :: rest) then
          let after := ((c :: rest).drop 2).dropWhile isSpaceCh
          match after with
          | '(' :: rest' => 1 + countIfParenGo fuel false rest'
          | _ => countIfParenGo fuel (isWordChar c) rest
        else countIfParenGo fuel (isWordChar c) rest

/-- `len(re.findall(r"\bif\s*\(", source))`. -/
def countIfParen (cs : List Char) : Nat := countIfParenGo cs.length false cs

/-- Does the word-bounded keyword `kw` occur in `run`?  `run` is a
brace-free region whose (virtual) neighbours on both sides are braces, so
the region boundaries are word boundaries. -/
def containsWordBoundedGo (kw : List Char) : Bool → List Char → Bool
  | _, [] => false
  | prevWord, c :: rest =>
      if !prevWord && kw.isPrefixOf (c :: rest) &&
          (match (c :: rest).drop kw.length with
           | [] => true
           | d :: _ => !isWordChar d) then true
      else containsWordBoundedGo kw (isWordChar c) rest

/-- Word-bounded occurrence test used for `\b(?:return|throw)\b` inside a
guard body. -/
def containsWordBounded (kw : String) (run : List Char) : Bool :=
  containsWordBoundedGo kw.toList false run

/-- Try to match the guard-clause pattern
`\bif\s*\([^)]*\)\s*\{[^\x7b\x7d]*\b(?:return|throw)\b[^\x7b\x7d]*\}`
starting exactly at the head of the input (the preceding character was
already checked to be a non-word character).  Returns the rest of the
input after the closing brace on success. -/
def matchGuardHere (cs : List Char) : Option (List Char) :=
  if ['i', 'f'].isPrefixOf cs then
    let afterIf := (cs.drop 2).dropWhile isSpaceCh
    match afterIf with
    | '(' :: afterParen =>
        let inside := afterParen.takeWhile (· ≠ ')')
        match afterParen.drop inside.length with
        | ')' :: afterClose =>
            let afterWs := afterClose.dropWhile isSpaceCh
            match afterWs with
            | b :: afterBrace =>
                if b = lbrace then
                  let run := afterBrace.takeWhile (fun d => d ≠ lbrace && d ≠ rbrace)
                  match afterBrace.drop run.length with
                  | d :: afterRun =>
                      if d = rbrace &&
                          (containsWordBounded "return" run || containsWordBounded "throw" run) then
                        some afterRun
                      else none
                  | [] => none
                else none
            | [] => none
        | _ => none
    | _ => none
  else none

/-- `len(re.findall(r"\bif\s*\([^)]*\)\s*\{[^\x7b\x7d]*\b(?:return|throw)\b[^\x7b\x7d]*\}", s, re.DOTALL))`. -/
def countGuardMatchesGo : Nat → Bool → List Char → Nat
  | 0, _, _ => 0
  | _, _, [] => 0
  | fuel + 1, prevWord, c :: rest =>
      if prevWord then countGuardMatchesGo fuel (isWordChar c) rest
      else
        match matchGuardHere (c :: rest) with
        | some after => 1 + countGuardMatchesGo fuel false after
        | none => countGuardMatchesGo fuel (isWordChar c) rest

/-- Count of guard-clause regex matches. -/
def countGuardMatches (cs : List Char) : Nat := countGuardMatchesGo cs.length false cs

/-- Try to match `\breturn\s+([A-Za-z_$][\w$]*)\s*;` at the head of the
input; returns the captured identifier and the rest after the `;`. -/
def matchReturnIdentHere (cs : List Char) : Option (String × List Char) :=
  if ['r', 'e', 't', 'u', 'r', 'n'].isPrefixOf cs then
    let afterKw := cs.drop 6
    let ws := afterKw.takeWhile isSpaceCh
    if ws.isEmpty then none
    else
      match matchIdent (afterKw.dropWhile isSpaceCh) with
      | some (name, after) =>
          match after.dropWhile isSpaceCh with
          | ';' :: rest' => some (String.mk name, rest')
          | _ => none
      | none => none
  else none

/-- `re.findall(r"\breturn\s+([A-Za-z_$][\w$]*)\s*;", source)`. -/
def returnIdentsGo : Nat → Bool → List Char → List String
  | 0, _, _ => []
  | _, _, [] => []
  | fuel + 1, prevWord, c :: rest =>
      if prevWord then returnIdentsGo fuel (isWordChar c) rest
      else
        match matchReturnIdentHere (c :: rest) with
        | some (name, after) => name :: returnIdentsGo fuel false after
        | none => returnIdentsGo fuel (isWordChar c) rest

/-- The captured identifiers of all `return <ident>;` matches. -/
def returnIdents (cs : List Char) : List String := returnIdentsGo cs.length false cs

end ScriptScan

/-! ## Provenance scorer — lexical (script) approximations and scoring -/

namespace Provenance

/-- `provenance._strip_script_comments`. -/
def stripScriptComments (source : String) : List Char :=
  ScriptScan.stripComments source.toList

/-- `provenance._script_statement_count`: semicolons plus word-bounded
control keywords (including `catch`) in the comment-stripped source, at
least 1. -/
def scriptStatementCount (source : String) : Nat :=
  let cleaned := stripScriptComments source
  let count := cleaned.countP (· = ';') +
    ScriptScan.countKeywords ["if", "for", "while", "return", "throw", "switch", "catch"] cleaned
  max count 1

/-- `provenance._script_guard_clause_count` (on the comment-stripped
source). -/
def scriptGuardClauseCount (source : String) : Nat :=
  ScriptScan.countGuardMatches (stripScriptComments source)

/-- `provenance._script_variable_name_ratio` (on the raw source). -/
def scriptVariableNameRatio (source : String) : Q :=
  let names := (ScriptScan.declNames source.toList).map pyLower
  if names.isEmpty then qnat 0
  else Q.div (qnat (names.countP (fun n => GENERIC_VARIABLE_NAMES.contains n)))
    (qnat names.length)

/-- `provenance._script_defensive_density` (counts `if (` on the raw
source). -/
def scriptDefensiveDensity (source : String) (statement_count : Nat) : Q :=
  Q.div (qnat (ScriptScan.countIfParen source.toList)) (qnat (max statement_count 1))

/-- `provenance._script_repetitive_error_messages` (string literals of the
raw source, quotes stripped, lowercased, filtered for error-like words). -/
def scriptRepetitiveErrorMessages (source : String) : Bool :=
  let strings := (ScriptScan.findStringLits source.toList.length source.toList).filterMap
    fun lit =>
      let value := pyLower (String.mk (lit.drop 1).dropLast)
      if strContains value "error" || strContains value "invalid" ||
          strContains value "fail" then some value else none
  decide (2 ≤ strings.length) && decide (distinctCount strings ≤ strings.length / 2 + 1)

/-- `provenance._script_generic_return_pattern` (the last
`return <ident>;` match of the raw source). -/
def scriptGenericReturnPattern (source : String) : Bool :=
  match (ScriptScan.returnIdents source.toList).getLast? with
  | some name => GENERIC_VARIABLE_NAMES.contains (pyLower name)
  | none => false

/-- Word-bounded `for`/`while` search used by the script boilerplate
feature (`re.search(r"\b(for|while)\b", source)`). -/
def scriptHasLoop (source : String) : Bool :=
  ScriptScan.countKeywords ["for", "while"] source.toList ≠ 0

/-- The score and signal-label accumulation of `provenance._score_entity`
before the threshold comparison (lines 144–206: the threshold parameter is
not consulted until the final cutoff). -/
def scoreEntityCore (entity : CodeEntity) (git_evidence : Option GitProvenanceEvidence) :
    Q × List String :=
  let base : Q × List String :=
    match firstFunctionNode entity.parsed with
    | some f =>
        let s1 := if guardClauseCount f ≥ 3 then
            (Q.add (qnat 0) (qmk 25 100), ["uniform guard clauses"]) else (qnat 0, [])
        let s2 := if Q.ge (variableNameRatio f) (qmk 6 10) then
            (Q.add s1.1 (qmk 2 10), s1.2 ++ ["generic variable naming"]) else s1
        let s3 := if Q.ge (defensiveDensity f) (qmk 4 10) ∧ statementCount f ≥ 4 then
            (Q.add s2.1 (qmk 2 10), s2.2 ++ ["high defensive branch density"]) else s2
        let s4 := if repetitiveErrorMessages f then
            (Q.add s3.1 (qmk 15 100), s3.2 ++ ["repetitive error messaging"]) else s3
        let s5 := if genericReturnPattern f then
            (Q.add s4.1 (qmk 15 100), s4.2 ++ ["generic return pipeline"]) else s4
        let s6 := if statementCount f ≥ 12 ∧ ¬hasLoopOrTry f then
            (Q.add s5.1 (qmk 1 10), s5.2 ++ ["long boilerplate flow"]) else s5
        s6
    | none =>
        let src := entity.source
        let s1 := if scriptGuardClauseCount src ≥ 3 then
            (Q.add (qnat 0) (qmk 25 100), ["uniform guard clauses"]) else (qnat 0, [])
        let s2 := if Q.ge (scriptVariableNameRatio src) (qmk 6 10) then
            (Q.add s1.1 (qmk 2 10), s1.2 ++ ["generic variable naming"]) else s1
        let stmtCount := scriptStatementCount src
        let s3 := if Q.ge (scriptDefensiveDensity src stmtCount) (qmk 35 100) ∧
            stmtCount ≥ 4 then
            (Q.add s2.1 (qmk 2 10), s2.2 ++ ["high defensive branch density"]) else s2
        let s4 := if scriptRepetitiveErrorMessages src then
            (Q.add s3.1 (qmk 15 100), s3.2 ++ ["repetitive error messaging"]) else s3
        let s5 := if scriptGenericReturnPattern src then
            (Q.add s4.1 (qmk 15 100), s4.2 ++ ["generic return pipeline"]) else s4
        let s6 := if stmtCount ≥ 12 ∧ ¬scriptHasLoop src then
            (Q.add s5.1 (qmk 1 10), s5.2 ++ ["long boilerplate flow"]) else s5
        s6
  applyGitAdjustments base.1 base.2 git_evidence

/-- `provenance._score_entity`: clamp the (git-adjusted) score to
`[0, 0.99]` after 2-decimal rounding and drop the entity when the score is
below the threshold. -/
def scoreEntity (entity : CodeEntity) (threshold : Q)
    (git_evidence : Option GitProvenanceEvidence) : Option AIProvenanceSignal :=
  let core := scoreEntityCore entity git_evidence
  let score := Q.pymin (Q.pymax (round2 core.1) (qnat 0)) (qmk 99 100)
  if Q.lt score threshold then none
  else some
    { entity_id := entity.entity_id
      ai_probability := score
      confidence := if Q.ge score (qmk 8 10) then "high" else "medium"
      signals := core.2 }

/-- Python-dict lookup in an association list (keys unique in every
producer, so first match suffices). -/
def dictGet (m : List (String × GitProvenanceEvidence)) (k : String) :
    Option GitProvenanceEvidence :=
  match m.find? (fun p => p.1 = k) with
  | some p => some p.2
  | none => none

/-- `provenance.detect_ai_signals`. -/
def detectAiSignals (entities : List CodeEntity) (threshold : Q)
    (git_evidence_by_entity : Option (List (String × GitProvenanceEvidence))) :
    List AIProvenanceSignal :=
  entities.filterMap fun entity =>
    let git_evidence :=
      match git_evidence_by_entity with
      | none => none
      | some m => dictGet m entity.entity_id
    scoreEntity entity threshold git_evidence

end Provenance

/-! ## Duplication detector (`duplication.py`) -/

namespace Duplication

/-- `duplication._SCRIPT_KEYWORDS`. -/
def SCRIPT_KEYWORDS : List String :=
  ["as", "async", "await", "break", "case", "catch", "class", "const",
   "continue", "debugger", "default", "delete", "do", "else", "enum",
   "export", "extends", "false", "finally", "for", "from", "function",
   "if", "implements", "import", "in", "instanceof", "interface", "let",
   "new", "null", "of", "package", "private", "protected", "public",
   "readonly", "return", "static", "super", "switch", "this", "throw",
   "true", "try", "type", "typeof", "var", "void", "while", "with",
   "yield"]

mutual
/-- `_CanonicalizeTransformer` on expressions: `Name` identifiers become
`var`, attribute names become `attr` (after transforming the value),
string constants become `'STR'` and numeric constants (which in Python
include booleans, since `bool` subclasses `int`) become `0`. -/
def canonExpr : PyExpr → PyExpr
  | .pyname _ ctx => .pyname "var" ctx
  | .const (.pstr _) => .const (.pstr "STR")
  | .const (.pnum _) => .const (.pnum (qnat 0))
  | .const (.pbool _) => .const (.pnum (qnat 0))
  | .const .pnone => .const .pnone
  | .attr value _ ctx => .attr (canonExpr value) "attr" ctx
  | .call func args => .call (canonExpr func) (canonExprList args)
  | .binop op l r => .binop op (canonExpr l) (canonExpr r)
  | .cmp op l r => .cmp op (canonExpr l) (canonExpr r)

/-- Canonicalization mapped over expression lists. -/
def canonExprList : List PyExpr → List PyExpr
  | [] => []
  | e :: rest => canonExpr e :: canonExprList rest
end

mutual
/-- `_CanonicalizeTransformer` on statements (`generic_visit` recursion;
`visit_arg` renames every argument to `arg`). -/
def canonStmt : PyStmt → PyStmt
  | .funcDef n args body async => .funcDef n (args.map fun _ => "arg") (canonStmts body) async
  | .classDef n body => .classDef n (canonStmts body)
  | .ifStmt t body orelse => .ifStmt (canonExpr t) (canonStmts body) (canonStmts orelse)
  | .ret v => .ret (v.map canonExpr)
  | .raiseStmt e => .raiseStmt (e.map canonExpr)
  | .assign ts v => .assign (canonExprList ts) (canonExpr v)
  | .exprStmt v => .exprStmt (canonExpr v)
  | .forStmt t i body orelse =>
      .forStmt (canonExpr t) (canonExpr i) (canonStmts body) (canonStmts orelse)
  | .whileStmt t body orelse => .whileStmt (canonExpr t) (canonStmts body) (canonStmts orelse)
  | .tryStmt body handlers orelse finalBody =>
      .tryStmt (canonStmts body) (canonStmtss handlers) (canonStmts orelse)
        (canonStmts finalBody)
  | .pass => .pass

/-- Canonicalization mapped over statement lists. -/
def canonStmts : List PyStmt → List PyStmt
  | [] => []
  | s :: rest => canonStmt s :: canonStmts rest

/-- Canonicalization mapped over handler bodies. -/
def canonStmtss : List (List PyStmt) → List (List PyStmt)
  | [] => []
  | l :: rest => canonStmts l :: canonStmtss rest
end

/-- Quote a string the way `ast.dump` renders string constants. -/
def quoteStr (s : String) : String := String.mk (apos :: s.toList ++ [apos])

/-- Render a rational the way `ast.dump` renders the (integer) constants
produced by the canonicalizer. -/
def dumpNum (q : Q) : String :=
  if q.den = 1 then intToStr q.num else intToStr q.num ++ "/" ++ natToStr q.den

/-- Render a context the way `ast.dump` does. -/
def dumpCtx : PyCtx → String
  | .load => "Load()"
  | .store => "Store()"
  | .del => "Del()"

mutual
/-- A stable textual serialization of the rewritten tree, modelling
`ast.dump(transformed, include_attributes=False)`: node kind name with the
node's fields rendered in order. -/
def dumpExpr : PyExpr → String
  | .pyname id ctx => "Name(id=" ++ quoteStr id ++ ", ctx=" ++ dumpCtx ctx ++ ")"
  | .const (.pstr s) => "Constant(value=" ++ quoteStr s ++ ")"
  | .const (.pnum q) => "Constant(value=" ++ dumpNum q ++ ")"
  | .const (.pbool b) => "Constant(value=" ++ (if b then "True" else "False") ++ ")"
  | .const .pnone => "Constant(value=None)"
  | .attr value a ctx =>
      "Attribute(value=" ++ dumpExpr value ++ ", attr=" ++ quoteStr a ++
        ", ctx=" ++ dumpCtx ctx ++ ")"
  | .call func args => "Call(func=" ++ dumpExpr func ++ ", args=" ++ dumpExprList args ++ ")"
  | .binop op l r =>
      "BinOp(left=" ++ dumpExpr l ++ ", op=" ++ op ++ "(), right=" ++ dumpExpr r ++ ")"
  | .cmp op l r =>
      "Compare(left=" ++ dumpExpr l ++ ", ops=[" ++ op ++ "()], comparators=[" ++
        dumpExpr r ++ "])"

/-- Serialization of an expression list. -/
def dumpExprList (es : List PyExpr) : String :=
  "[" ++ dumpJoinE es ++ "]"

/-- Comma-joined serializations. -/
def dumpJoinE : List PyExpr → String
  | [] => ""
  | [e] => dumpExpr e
  | e :: rest => dumpExpr e ++ ", " ++ dumpJoinE rest
end

/-- Serialization of an argument-name list. -/
def dumpArgs : List String → String
  | [] => ""
  | [a] => "arg(arg=" ++ quoteStr a ++ ")"
  | a :: rest => "arg(arg=" ++ quoteStr a ++ "), " ++ dumpArgs rest

mutual
/-- Serialization of a statement. -/
def dumpStmt : PyStmt → String
  | .funcDef n args body async =>
      (if async then "AsyncFunctionDef(name=" else "FunctionDef(name=") ++ quoteStr n ++
        ", args=arguments(args=[" ++ dumpArgs args ++ "]), body=" ++ dumpStmtList body ++ ")"
  | .classDef n body => "ClassDef(name=" ++ quoteStr n ++ ", body=" ++ dumpStmtList body ++ ")"
  | .ifStmt t body orelse =>
      "If(test=" ++ dumpExpr t ++ ", body=" ++ dumpStmtList body ++
        ", orelse=" ++ dumpStmtList orelse ++ ")"
  | .ret none => "Return(value=None)"
  | .ret (some v) => "Return(value=" ++ dumpExpr v ++ ")"
  | .raiseStmt none => "Raise()"
  | .raiseStmt (some e) => "Raise(exc=" ++ dumpExpr e ++ ")"
  | .assign ts v => "Assign(targets=" ++ dumpExprList ts ++ ", value=" ++ dumpExpr v ++ ")"
  | .exprStmt v => "Expr(value=" ++ dumpExpr v ++ ")"
  | .forStmt t i body orelse =>
      "For(target=" ++ dumpExpr t ++ ", iter=" ++ dumpExpr i ++ ", body=" ++
        dumpStmtList body ++ ", orelse=" ++ dumpStmtList orelse ++ ")"
  | .whileStmt t body orelse =>
      "While(test=" ++ dumpExpr t ++ ", body=" ++ dumpStmtList body ++
        ", orelse=" ++ dumpStmtList orelse ++ ")"
  | .tryStmt body handlers orelse finalBody =>
      "Try(body=" ++ dumpStmtList body ++ ", handlers=" ++ dumpHandlers handlers ++
        ", orelse=" ++ dumpStmtList orelse ++ ", finalbody=" ++ dumpStmtList finalBody ++ ")"
  | .pass => "Pass()"

/-- Serialization of a statement list. -/
def dumpStmtList (ss : List PyStmt) : String :=
  "[" ++ dumpJoinS ss ++ "]"

/-- Comma-joined statement serializations. -/
def dumpJoinS : List PyStmt → String
  | [] => ""
  | [s] => dumpStmt s
  | s :: rest => dumpStmt s ++ ", " ++ dumpJoinS rest

/-- Serialization of handler bodies. -/
def dumpHandlers (hs : List (List PyStmt)) : String :=
  "[" ++ dumpJoinH hs ++ "]"

/-- Comma-joined handler serializations. -/
def dumpJoinH : List (List PyStmt) → String
  | [] => ""
  | [l] => "ExceptHandler(body=" ++ dumpStmtList l ++ ")"
  | l :: rest => "ExceptHandler(body=" ++ dumpStmtList l ++ "), " ++ dumpJoinH rest
end

/-- `_SCRIPT_NUMBER_RE.sub("0", s)`: replace word-bounded
`\d+(?:\.\d+)?` literals by `0`.  `prevWord` tracks whether the previous
character is a regex word character. -/
def numberSubGo : Nat → Bool → List Char → List Char
  | 0, _, _ => []
  | _, _, [] => []
  | fuel + 1, prevWord, c :: rest =>
      if !prevWord && isDigitCh c then
        let digits := c :: rest.takeWhile isDigitCh
        let afterInt := rest.dropWhile isDigitCh
        let withFrac : List Char × List Char :=
          match afterInt with
          | '.' :: d :: rest' =>
              if isDigitCh d then
                (digits ++ '.' :: d :: rest'.takeWhile isDigitCh, rest'.dropWhile isDigitCh)
              else (digits, afterInt)
          | _ => (digits, afterInt)
        match withFrac.2 with
        | [] => '0' :: []
        | d :: _ =>
            if isWordChar d then
              c :: numberSubGo fuel true rest
            else '0' :: numberSubGo fuel true withFrac.2
      else c :: numberSubGo fuel (isWordChar c) rest

/-- `_SCRIPT_NUMBER_RE.sub("0", s)`. -/
def numberSub (cs : List Char) : List Char := numberSubGo cs.length false cs

/-- Given the greedy identifier run `r` (characters in `[\w$]`) and the
word-ness of the character following the whole run, the length of the
longest prefix of `r` that ends at a `\b` word boundary (the regex engine
backtracks the greedy `[\w$]*` until the trailing `\b` holds), or 0 when
no prefix does. -/
def identMatchLen (r : List Char) (nextIsWord : Bool) : Nat :=
  go r.length
where
  go : Nat → Nat
    | 0 => 0
    | k + 1 =>
      let last := r.getD k ' '
      let next := if k + 1 < r.length then isWordChar (r.getD (k + 1) ' ') else nextIsWord
      if isWordChar last ≠ next then k + 1 else go k

/-- `_SCRIPT_IDENTIFIER_RE.sub(replace_identifier, s)`: every
word-bounded `[_$A-Za-z][_$A-Za-z0-9]*` token that is not a script
keyword becomes `var`; keywords are kept.  A leading `\b` requires the
word-ness of the previous character to differ from that of the token's
first character. -/
def identSubGo (keywords : List String) : Nat → Bool → List Char → List Char
  | 0, _, _ => []
  | _, _, [] => []
  | fuel + 1, prevWord, c :: rest =>
      if isIdentStart c && (prevWord ≠ isWordChar c) then
        let run := c :: rest.takeWhile isIdentCont
        let afterRun := rest.dropWhile isIdentCont
        let nextIsWord := match afterRun with
          | [] => false
          | d :: _ => isWordChar d
        let k := identMatchLen run nextIsWord
        if k = 0 then c :: identSubGo keywords fuel (isWordChar c) rest
        else
          let token := String.mk (run.take k)
          let rendered := if keywords.contains token then token.toList else ['v', 'a', 'r']
          let remaining := (c :: rest).drop k
          rendered ++ identSubGo keywords fuel (isWordChar (run.getD (k - 1) ' ')) remaining
      else c :: identSubGo keywords fuel (isWordChar c) rest

/-- `_SCRIPT_IDENTIFIER_RE.sub(replace_identifier, s)`. -/
def identSub (cs : List Char) : List Char := identSubGo SCRIPT_KEYWORDS cs.length false cs

/-- `re.sub(r"\s+", " ", s)` (fuelled scan; each step consumes at least
one character). -/
def collapseWsGo : Nat → List Char → List Char
  | 0, _ => []
  | _, [] => []
  | fuel + 1, c :: rest =>
      if isSpaceCh c then ' ' :: collapseWsGo fuel (rest.dropWhile isSpaceCh)
      else c :: collapseWsGo fuel rest

/-- `re.sub(r"\s+", " ", s)`. -/
def collapseWs (cs : List Char) : List Char := collapseWsGo cs.length cs

/-- Python `str.strip()`. -/
def stripWs (cs : List Char) : List Char :=
  ((cs.dropWhile isSpaceCh).reverse.dropWhile isSpaceCh).reverse

/-- The statement-count estimate of `_normalized_script_signature` (semicolon
count plus statement-keyword count over the comment-stripped source). -/
def scriptSigStatementCount (cleaned : List Char) : Nat :=
  cleaned.countP (· = ';') +
    ScriptScan.countKeywords ["if", "for", "while", "return", "throw", "switch"] cleaned

/-- `duplication._normalized_script_signature`. -/
def normalizedScriptSignature (source : String) (min_body_statements : Nat) : Option String :=
  let cleaned := ScriptScan.stripComments source.toList
  let statement_count := scriptSigStatementCount cleaned
  if statement_count < min_body_statements then none
  else
    let normalized := ScriptScan.replaceStringLits ['S', 'T', 'R'] cleaned.length cleaned
    let normalized := numberSub normalized
    let normalized := identSub normalized
    some (String.mk (stripWs (collapseWs normalized)))

/-- `duplication._first_function_node` (same definition as the provenance
module's). -/
def firstFunctionNode (parsed : Option (List PyStmt)) : Option Provenance.FuncNode :=
  Provenance.firstFunctionNode parsed

/-- `duplication._normalized_signature`. -/
def normalizedSignature (entity : CodeEntity) (min_body_statements : Nat) : Option String :=
  match firstFunctionNode entity.parsed with
  | some f =>
      if f.body.length < min_body_statements then none
      else
        some (dumpStmt (canonStmt (.funcDef f.name f.args f.body f.isAsync)))
  | none => normalizedScriptSignature entity.source min_body_statements

end Duplication

/-! ### `difflib.SequenceMatcher` (stdlib, called by
`detect_duplication_pairs`)

Embedding of `SequenceMatcher(None, a, b).ratio()` for strings: `b2j`
construction with the autojunk purge, `find_longest_match` (with
`isjunk = None` the junk set is empty, so the junk-extension loops never
fire and only the non-junk extension loops are modelled), and the total
matched size of the recursive block decomposition (the iterative queue in
`get_matching_blocks` computes the same decomposition; the adjacent-block
merge does not change the total, which is all `ratio` uses). -/

/-- Lookup with default 0 in a `j2len` association list. -/
def assocGetNat (m : List (Nat × Nat)) (k : Nat) : Nat :=
  match m.find? (fun p => p.1 = k) with
  | some p => p.2
  | none => 0

/-- `b2j`: map each character of `b` to its indices in increasing order. -/
def buildB2j (b : List Char) : List (Char × List Nat) :=
  go b 0 []
where
  go : List Char → Nat → List (Char × List Nat) → List (Char × List Nat)
    | [], _, acc => acc
    | c :: rest, i, acc =>
        if acc.any (fun p => p.1 = c) then
          go rest (i + 1) (acc.map (fun p => if p.1 = c then (p.1, p.2 ++ [i]) else p))
        else go rest (i + 1) (acc ++ [(c, [i])])

/-- The autojunk purge: for `len(b) >= 200`, characters accounting for
more than `len(b) // 100 + 1` positions are removed from `b2j`. -/
def purgePopular (b2j : List (Char × List Nat)) (n : Nat) : List (Char × List Nat) :=
  if n ≥ 200 then b2j.filter (fun p => ¬(p.2.length > n / 100 + 1)) else b2j

/-- The running best match of `find_longest_match`. -/
structure FlmState where
  besti : Nat
  bestj : Nat
  bestsize : Nat
deriving Repr

/-- The inner loop of `find_longest_match` over the occurrence list
`b2j[a[i]]` (skipping `j < blo`, breaking at `j ≥ bhi`), threading the
`newj2len` accumulator and the best match. -/
def flmInner (blo bhi i : Nat) (j2len : List (Nat × Nat)) :
    List Nat → List (Nat × Nat) → FlmState → List (Nat × Nat) × FlmState
  | [], acc, st => (acc, st)
  | j :: js, acc, st =>
      if j < blo then flmInner blo bhi i j2len js acc st
      else if j ≥ bhi then (acc, st)
      else
        let k := (if j = 0 then 0 else assocGetNat j2len (j - 1)) + 1
        let acc' := (j, k) :: acc
        let st' := if k > st.bestsize then ⟨i + 1 - k, j + 1 - k, k⟩ else st
        flmInner blo bhi i j2len js acc' st'

/-- The outer loop of `find_longest_match` over `i ∈ [alo, ahi)`. -/
def flmOuter (a : List Char) (b2j : List (Char × List Nat)) (blo bhi : Nat) :
    List Nat → List (Nat × Nat) → FlmState → FlmState
  | [], _, st => st
  | i :: is', j2len, st =>
      let js := match b2j.find? (fun p => p.1 = a.getD i ' ') with
        | some p => p.2
        | none => []
      let (newj2len, st') := flmInner blo bhi i j2len js [] st
      flmOuter a b2j blo bhi is' newj2len st'

/-- The left extension loop (`isjunk = None`, so only the non-junk loop
can fire). -/
def extendLeft (a b : List Char) (alo blo : Nat) : Nat → FlmState → FlmState
  | 0, st => st
  | fuel + 1, st =>
      if st.besti > alo ∧ st.bestj > blo ∧
          a.getD (st.besti - 1) ' ' = b.getD (st.bestj - 1) ' ' then
        extendLeft a b alo blo fuel ⟨st.besti - 1, st.bestj - 1, st.bestsize + 1⟩
      else st

/-- The right extension loop. -/
def extendRight (a b : List Char) (ahi bhi : Nat) : Nat → FlmState → FlmState
  | 0, st => st
  | fuel + 1, st =>
      if st.besti + st.bestsize < ahi ∧ st.bestj + st.bestsize < bhi ∧
          a.getD (st.besti + st.bestsize) ' ' = b.getD (st.bestj + st.bestsize) ' ' then
        extendRight a b ahi bhi fuel ⟨st.besti, st.bestj, st.bestsize + 1⟩
      else st

/-- `find_longest_match(alo, ahi, blo, bhi)`. -/
def findLongestMatch (a b : List Char) (b2j : List (Char × List Nat))
    (alo ahi blo bhi : Nat) : FlmState :=
  let st := flmOuter a b2j blo bhi (List.range' alo (ahi - alo)) [] ⟨alo, blo, 0⟩
  let st := extendLeft a b alo blo (a.length + b.length + 1) st
  extendRight a b ahi bhi (a.length + b.length + 1) st

/-- Total size of the matching blocks over the recursive decomposition of
`get_matching_blocks` (left subrange recursed only when both sides are
non-empty, likewise the right, exactly as the queue loop does). -/
def matchedTotal (a b : List Char) (b2j : List (Char × List Nat)) :
    Nat → Nat → Nat → Nat → Nat → Nat
  | 0, _, _, _, _ => 0
  | fuel + 1, alo, ahi, blo, bhi =>
      let st := findLongestMatch a b b2j alo ahi blo bhi
      if st.bestsize = 0 then 0
      else
        (if alo < st.besti ∧ blo < st.bestj then
          matchedTotal a b b2j fuel alo st.besti blo st.bestj else 0) +
        st.bestsize +
        (if st.besti + st.bestsize < ahi ∧ st.bestj + st.bestsize < bhi then
          matchedTotal a b b2j fuel (st.besti + st.bestsize) ahi
            (st.bestj + st.bestsize) bhi else 0)

/-- `SequenceMatcher(None, a, b).ratio()`:
`2 * M / (len(a) + len(b))`, or `1.0` for two empty sequences. -/
def seqMatcherRatio (sa sb : String) : Q :=
  let a := sa.toList
  let b := sb.toList
  let b2j := purgePopular (buildB2j b) b.length
  let m := matchedTotal a b b2j (a.length + b.length + 1) 0 a.length 0 b.length
  if a.length + b.length ≠ 0 then Q.div (qnat (2 * m)) (qnat (a.length + b.length))
  else qnat 1

namespace Duplication

/-- Python-dict insertion: an existing key keeps its position and gets the
new value, a fresh key is appended. -/
def dictInsert (m : List (String × String)) (k v : String) : List (String × String) :=
  if m.any (fun p => p.1 = k) then m.map (fun p => if p.1 = k then (k, v) else p)
  else m ++ [(k, v)]

/-- The `signatures` dict of `detect_duplication_pairs`: entity id ↦
normalized signature, falsy (absent or empty) signatures skipped. -/
def signaturesDict (entities : List CodeEntity) (min_body_statements : Nat) :
    List (String × String) :=
  entities.foldl (fun m entity =>
    match normalizedSignature entity min_body_statements with
    | some signature => if signature ≠ "" then dictInsert m entity.entity_id signature else m
    | none => m) []

/-- Dict lookup (keys are unique by construction). -/
def sigGet (m : List (String × String)) (k : String) : String :=
  match m.find? (fun p => p.1 = k) with
  | some p => p.2
  | none => ""

/-- All index-ordered pairs (`index_a < index_b`) in the double-loop order
of `detect_duplication_pairs`. -/
def orderedPairs : List String → List (String × String)
  | [] => []
  | x :: rest => rest.map (fun y => (x, y)) ++ orderedPairs rest

/-- The classification of one candidate pair (the loop body). -/
def classifyPair (m : List (String × String)) (high_threshold medium_threshold : Q)
    (include_medium : Bool) (p : String × String) : Option DuplicationPair :=
  let ratio := seqMatcherRatio (sigGet m p.1) (sigGet m p.2)
  let confidence : Option String :=
    if Q.ge ratio high_threshold then some "high"
    else if include_medium ∧ Q.ge ratio medium_threshold then some "medium"
    else none
  match confidence with
  | some conf => some ⟨p.1, p.2, round3 ratio, conf⟩
  | none => none

/-- Stable insertion for the descending sort by `semantic_overlap`
(`results.sort(key=..., reverse=True)`: equal keys keep discovery
order). -/
def insertDesc (x : DuplicationPair) : List DuplicationPair → List DuplicationPair
  | [] => [x]
  | y :: rest =>
      if Q.lt y.semantic_overlap x.semantic_overlap then x :: y :: rest
      else y :: insertDesc x rest

/-- Stable sort by similarity, descending. -/
def sortByOverlapDesc (l : List DuplicationPair) : List DuplicationPair :=
  l.foldl (fun acc x => insertDesc x acc) []

/-- `duplication.detect_duplication_pairs`. -/
def detectDuplicationPairs (entities : List CodeEntity) (high_threshold medium_threshold : Q)
    (include_medium : Bool) (min_body_statements : Nat) : List DuplicationPair :=
  let m := signaturesDict entities min_body_statements
  let entity_ids := m.map (fun p => p.1)
  let results := (orderedPairs entity_ids).filterMap
    (classifyPair m high_threshold medium_threshold include_medium)
  sortByOverlapDesc results

end Duplication

/-! ## Scanner (`scanner.py`) -/

namespace Scanner

/-- `scanner._find_matching_brace`: index-driven loop over the source with
string/comment state; returns the index of the brace closing the tracked
depth, or `-1`.  The fuel is one more than the source length; every
iteration advances the index by 1 or 2, so it never runs out. -/
def findMatchingBraceGo (cs : List Char) :
    Nat → Nat → Int → Bool → Bool → Bool → Bool → Bool → Int
  | 0, _, _, _, _, _, _, _ => -1
  | fuel + 1, index, depth, in_single, in_double, in_template, in_line_comment,
      in_block_comment =>
    match cs.drop index with
    | [] => -1
    | char :: tail =>
      let next_char : Char := tail.headD (Char.ofNat 0)
      if in_line_comment then
        findMatchingBraceGo cs fuel (index + 1) depth in_single in_double in_template
          (if char = '\n' then false else true) in_block_comment
      else if in_block_comment then
        if char = '*' ∧ next_char = '/' then
          findMatchingBraceGo cs fuel (index + 2) depth in_single in_double in_template
            in_line_comment false
        else
          findMatchingBraceGo cs fuel (index + 1) depth in_single in_double in_template
            in_line_comment in_block_comment
      else if in_single then
        if char = '\\' then
          findMatchingBraceGo cs fuel (index + 2) depth in_single in_double in_template
            in_line_comment in_block_comment
        else
          findMatchingBraceGo cs fuel (index + 1) depth (if char = apos then false else true)
            in_double in_template in_line_comment in_block_comment
      else if in_double then
        if char = '\\' then
          findMatchingBraceGo cs fuel (index + 2) depth in_single in_double in_template
            in_line_comment in_block_comment
        else
          findMatchingBraceGo cs fuel (index + 1) depth in_single
            (if char = '"' then false else true) in_template in_line_comment in_block_comment
      else if in_template then
        if char = '\\' then
          findMatchingBraceGo cs fuel (index + 2) depth in_single in_double in_template
            in_line_comment in_block_comment
        else
          findMatchingBraceGo cs fuel (index + 1) depth in_single in_double
            (if char = backquote then false else true) in_line_comment in_block_comment
      else if char = '/' ∧ next_char = '/' then
        findMatchingBraceGo cs fuel (index + 2) depth in_single in_double in_template
          true in_block_comment
      else if char = '/' ∧ next_char = '*' then
        findMatchingBraceGo cs fuel (index + 2) depth in_single in_double in_template
          in_line_comment true
      else if char = apos then
        findMatchingBraceGo cs fuel (index + 1) depth true in_double in_template
          in_line_comment in_block_comment
      else if char = '"' then
        findMatchingBraceGo cs fuel (index + 1) depth in_single true in_template
          in_line_comment in_block_comment
      else if char = backquote then
        findMatchingBraceGo cs fuel (index + 1) depth in_single in_double true
          in_line_comment in_block_comment
      else if char = lbrace then
        findMatchingBraceGo cs fuel (index + 1) (depth + 1) in_single in_double in_template
          in_line_comment in_block_comment
      else if char = rbrace then
        if depth - 1 = 0 then (index : Int)
        else
          findMatchingBraceGo cs fuel (index + 1) (depth - 1) in_single in_double in_template
            in_line_comment in_block_comment
      else
        findMatchingBraceGo cs fuel (index + 1) depth in_single in_double in_template
          in_line_comment in_block_comment

/-- `scanner._find_matching_brace(source_text, open_index)`. -/
def findMatchingBrace (cs : List Char) (open_index : Nat) : Int :=
  findMatchingBraceGo cs (cs.length + 1) open_index 0 false false false false false

/-- Literal-string parser step: consume `lit` or fail. -/
def litP (lit : List Char) (cs : List Char) : Option (List Char) :=
  if lit.isPrefixOf cs then some (cs.drop lit.length) else none

/-- `\s*`. -/
def wsStar (cs : List Char) : List Char := cs.dropWhile isSpaceCh

/-- `\s+`. -/
def wsPlus (cs : List Char) : Option (List Char) :=
  match cs with
  | c :: rest => if isSpaceCh c then some (rest.dropWhile isSpaceCh) else none
  | [] => none

/-- `\([^)]*\)`: an opening parenthesis, a run without `)`, the closing
parenthesis. -/
def parenGroup (cs : List Char) : Option (List Char) :=
  match cs with
  | '(' :: rest =>
      match rest.drop (rest.takeWhile (· ≠ ')')).length with
      | ')' :: after => some after
      | _ => none
  | _ => none

/-- `(?:async\s*)?` with the regex engine's preference for consuming the
optional group, backtracking to the empty alternative when the
continuation fails. -/
def optAsync (cont : List Char → Option (List Char)) (cs : List Char) : Option (List Char) :=
  match litP ['a', 's', 'y', 'n', 'c'] cs with
  | some cs' =>
      match cont (wsStar cs') with
      | some r => some r
      | none => cont cs
  | none => cont cs

/-- `(?:const|let|var)\s+`, alternatives in pattern order. -/
def declKeyword (cs : List Char) : Option (List Char) :=
  match litP ['c', 'o', 'n', 's', 't'] cs with
  | some r => wsPlus r
  | none =>
      match litP ['l', 'e', 't'] cs with
      | some r => wsPlus r
      | none =>
          match litP ['v', 'a', 'r'] cs with
          | some r => wsPlus r
          | none => none

/-- The tail common to all four patterns: `\s*\{` (expects the opening
brace after optional whitespace). -/
def braceTail (cs : List Char) : Option (List Char) :=
  match wsStar cs with
  | c :: rest => if c = lbrace then some rest else none
  | [] => none

/-- Pattern 1: `^\s*function\s+(?P<name>[A-Za-z_$][\w$]*)\s*\([^)]*\)\s*\{`
(matched from the anchor position; returns the captured name and the rest
after the brace). -/
def pat1 (cs : List Char) : Option (String × List Char) :=
  match litP ['f', 'u', 'n', 'c', 't', 'i', 'o', 'n'] (wsStar cs) with
  | none => none
  | some afterKw =>
      match wsPlus afterKw with
      | none => none
      | some afterWs =>
          match ScriptScan.matchIdent afterWs with
          | none => none
          | some (name, afterName) =>
              match parenGroup (wsStar afterName) with
              | none => none
              | some afterParen =>
                  match braceTail afterParen with
                  | some rest => some (String.mk name, rest)
                  | none => none

/-- The common prefix of patterns 2–4:
`^\s*(?:const|let|var)\s+(?P<name>[A-Za-z_$][\w$]*)\s*=\s*`. -/
def declPrefix (cs : List Char) : Option (String × List Char) :=
  match declKeyword (wsStar cs) with
  | none => none
  | some afterKw =>
      match ScriptScan.matchIdent afterKw with
      | none => none
      | some (name, afterName) =>
          match wsStar afterName with
          | '=' :: afterEq => some (String.mk name, wsStar afterEq)
          | _ => none

/-- Pattern 2: declaration prefix, `(?:async\s*)?function\s*\([^)]*\)\s*\{`. -/
def pat2 (cs : List Char) : Option (String × List Char) :=
  match declPrefix cs with
  | none => none
  | some (name, afterEq) =>
      let cont : List Char → Option (List Char) := fun s =>
        match litP ['f', 'u', 'n', 'c', 't', 'i', 'o', 'n'] s with
        | none => none
        | some afterKw =>
            match parenGroup (wsStar afterKw) with
            | none => none
            | some afterParen => braceTail afterParen
      match optAsync cont afterEq with
      | some rest => some (name, rest)
      | none => none

/-- Pattern 3: declaration prefix, `(?:async\s*)?\([^)]*\)\s*=>\s*\{`. -/
def pat3 (cs : List Char) : Option (String × List Char) :=
  match declPrefix cs with
  | none => none
  | some (name, afterEq) =>
      let cont : List Char → Option (List Char) := fun s =>
        match parenGroup s with
        | none => none
        | some afterParen =>
            match litP ['=', '>'] (wsStar afterParen) with
            | none => none
            | some afterArrow => braceTail afterArrow
      match optAsync cont afterEq with
      | some rest => some (name, rest)
      | none => none

/-- Pattern 4: declaration prefix, `(?:async\s*)?[A-Za-z_$][\w$]*\s*=>\s*\{`. -/
def pat4 (cs : List Char) : Option (String × List Char) :=
  match declPrefix cs with
  | none => none
  | some (name, afterEq) =>
      let cont : List Char → Option (List Char) := fun s =>
        match ScriptScan.matchIdent s with
        | none => none
        | some (_, afterParam) =>
            match litP ['=', '>'] (wsStar afterParam) with
            | none => none
            | some afterArrow => braceTail afterArrow
      match optAsync cont afterEq with
      | some rest => some (name, rest)
      | none => none

/-- `pattern.finditer(source_text)` for an `^`-anchored multiline pattern:
candidate positions are line starts, matches are non-overlapping, the scan
resumes at each match's end.  Returns `(start, name, end)` triples. -/
def finditerGo (pat : List Char → Option (String × List Char)) :
    Nat → Nat → Bool → List Char → List (Nat × String × Nat)
  | 0, _, _, _ => []
  | _, _, _, [] => []
  | fuel + 1, pos, atLineStart, c :: rest =>
      if atLineStart then
        match pat (c :: rest) with
        | some (name, after) =>
            let len := (c :: rest).length - after.length
            (pos, name, pos + len) :: finditerGo pat fuel (pos + len) false after
        | none => finditerGo pat fuel (pos + 1) (c = '\n') rest
      else finditerGo pat fuel (pos + 1) (c = '\n') rest

/-- All matches of one script-function pattern. -/
def finditer (pat : List Char → Option (String × List Char)) (cs : List Char) :
    List (Nat × String × Nat) :=
  finditerGo pat (cs.length + 1) 0 true cs

/-- `scanner._SCRIPT_FUNCTION_PATTERNS`, in order. -/
def scriptFunctionPatterns : List (List Char → Option (String × List Char)) :=
  [pat1, pat2, pat3, pat4]

/-- The SHA-1-derived entity identifier
`hashlib.sha1(raw_key.encode()).hexdigest()[:12]`, modelled by the raw key
itself: every claim treats identifiers as opaque tokens, and the model
keeps the only property the code relies on (a deterministic function of
the raw key). -/
def entityIdOf (raw_key : String) : String := raw_key

/-- Number of newline characters before position `pos` of the source
(`source_text.count("\n", 0, pos)`). -/
def countNl (cs : List Char) (pos : Nat) : Nat :=
  (cs.take pos).countP (· = '\n')

/-- `scanner._slice_source` (`str.splitlines` modelled as splitting on
`'\n'`, the only line terminator in the sources considered; the
`max(lineno - 1, 0)` of the code coincides with truncated `Nat`
subtraction). -/
def sliceSource (source_text : String) (lineno end_lineno : Nat) : String :=
  let lines := (splitOnCh '\n' source_text.toList).map String.mk
  let start_index := lineno - 1
  let end_index := min end_lineno lines.length
  joinWith "\n" ((lines.drop start_index).take (end_index - start_index))

/-- `scanner._build_entity`.  The `parsed` field is model-only data for
the scorer stages; scanner-produced entities are not fed onward in this
development, so it is `none` here. -/
def buildEntity (file_path qualified_name function_name : String)
    (lineno end_lineno : Nat) (source : String) : CodeEntity :=
  { entity_id := entityIdOf (file_path ++ ":" ++ qualified_name ++ ":" ++ natToStr lineno)
    file_path := file_path
    function_name := function_name
    qualified_name := qualified_name
    lineno := lineno
    end_lineno := end_lineno
    source := source
    parsed := none }

/-- One iteration of the match loop of `_extract_script_entities`:
dedup by start offset, locate the opening brace inside the match, find its
partner, and build the entity;  a candidate without a resolvable brace is
discarded. -/
def scriptStep (cs : List Char) (file_path module_name : String)
    (acc : List CodeEntity × List Nat) (m : Nat × String × Nat) :
    List CodeEntity × List Nat :=
  let start := m.1
  let name := m.2.1
  let mend := m.2.2
  if acc.2.contains start then acc
  else
    let seen' := start :: acc.2
    match ((cs.drop start).take (mend - start)).findIdx? (· = lbrace) with
    | none => (acc.1, seen')
    | some offset =>
        let open_index := start + offset
        let close := findMatchingBrace cs open_index
        if close < 0 then (acc.1, seen')
        else
          let closeN := close.toNat
          let qualified_name := joinWith "." (([module_name, name]).filter (· ≠ ""))
          let lineno := countNl cs start + 1
          let end_lineno := countNl cs closeN + 1
          let source := String.mk ((cs.drop start).take (closeN + 1 - start))
          (acc.1 ++ [buildEntity file_path qualified_name name lineno end_lineno source],
            seen')

/-- Ascending stable insertion by start line
(`entities.sort(key=lambda entity: entity.lineno)`). -/
def insertByLineno (x : CodeEntity) : List CodeEntity → List CodeEntity
  | [] => [x]
  | y :: rest => if x.lineno < y.lineno then x :: y :: rest else y :: insertByLineno x rest

/-- Stable sort by start line. -/
def sortByLineno (l : List CodeEntity) : List CodeEntity :=
  l.foldl (fun acc x => insertByLineno x acc) []

/-- `scanner._extract_script_entities`. -/
def extractScriptEntities (file_path module_name : String) (source_text : String) :
    List CodeEntity :=
  let cs := source_text.toList
  let result := scriptFunctionPatterns.foldl
    (fun acc pat => (finditer pat cs).foldl (scriptStep cs file_path module_name) acc)
    ([], [])
  sortByLineno result.1

/-! ### Native-AST (`.py`) extraction and repository traversal

The collector inspects only each node's kind, name, position and source
segment; the parse tree of a Python file is therefore modelled by its
projection to those fields (`ScanNode`), carried as parser-supplied data
(`none` models a `SyntaxError`).  `segment` models
`ast.get_source_segment(source_text, node)`. -/

inductive ScanNode where
  | func (name : String) (lineno : Nat) (endLineno : Option Nat) (segment : Option String)
      (children : List ScanNode) (isAsync : Bool)
  | cls (name : String) (children : List ScanNode)
  | other (children : List ScanNode)
deriving Repr

/-- A file of the modelled filesystem: its decoded text and, for `.py`
files, its parse tree projection. -/
structure SourceFile where
  raw : String
  scanParsed : Option (List ScanNode)
deriving Repr

/-- `scanner._FunctionCollector._record_function`. -/
def recordFunction (file_path module_name : String) (source_text : String)
    (class_stack : List String) (name : String) (lineno : Nat) (endLineno : Option Nat)
    (segment : Option String) : CodeEntity :=
  let qualified_parts :=
    (if module_name ≠ "" then [module_name] else []) ++ class_stack ++ [name]
  let qualified_name := joinWith "." qualified_parts
  let end_lineno := endLineno.getD lineno
  let source :=
    match segment with
    | some s => s
    | none => sliceSource source_text lineno end_lineno
  { entity_id := entityIdOf (file_path ++ ":" ++ qualified_name ++ ":" ++ natToStr lineno)
    file_path := file_path
    function_name := name
    qualified_name := qualified_name
    lineno := lineno
    end_lineno := end_lineno
    source := source
    parsed := none }

mutual
/-- `scanner._FunctionCollector` dispatch on one node: a function or
asynchronous function is recorded and then visited generically; a class
pushes its name onto the stack around its children; any other node is
visited generically. -/
def collectNode (file_path module_name source_text : String) (class_stack : List String) :
    ScanNode → List CodeEntity
  | .func name lineno endLineno segment children _ =>
      recordFunction file_path module_name source_text class_stack name lineno endLineno
          segment ::
        collectNodes file_path module_name source_text class_stack children
  | .cls name children =>
      collectNodes file_path module_name source_text (class_stack ++ [name]) children
  | .other children => collectNodes file_path module_name source_text class_stack children

/-- The collector over a node list (document order). -/
def collectNodes (file_path module_name source_text : String) (class_stack : List String) :
    List ScanNode → List CodeEntity
  | [] => []
  | node :: rest =>
      collectNode file_path module_name source_text class_stack node ++
        collectNodes file_path module_name source_text class_stack rest
end

/-- `scanner._extract_python_entities`: a file that fails to parse
contributes no entities. -/
def extractPythonEntities (file_path module_name : String) (file : SourceFile) :
    List CodeEntity :=
  match file.scanParsed with
  | none => []
  | some tree => collectNodes file_path module_name file.raw [] tree

/-- `scanner.IGNORED_DIRS`. -/
def IGNORED_DIRS : List String :=
  [".git", ".venv", "venv", "node_modules", "__pycache__", ".mypy_cache",
   ".pytest_cache", "dist", "build"]

/-- `scanner.SUPPORTED_EXTENSIONS`. -/
def SUPPORTED_EXTENSIONS : List String := [".py", ".js", ".jsx", ".ts", ".tsx"]

/-- `scanner.SCRIPT_EXTENSIONS`. -/
def SCRIPT_EXTENSIONS : List String := [".js", ".jsx", ".ts", ".tsx"]

/-- `pathlib.PurePath.suffix` of a file name: the part from the last dot,
provided that dot is neither the first nor the last character. -/
def suffixOf (filename : String) : String :=
  let cs := filename.toList
  match (cs.reverse.takeWhile (· ≠ '.')).length with
  | 0 => ""
  | tailLen =>
      if tailLen = cs.length then ""
      else if tailLen + 1 = cs.length then ""
      else String.mk (cs.drop (cs.length - tailLen - 1))

/-- A directory of the modelled filesystem. -/
inductive FSDir where
  | mk (subdirs : List (String × FSDir)) (files : List (String × SourceFile))

/-- Subdirectories accessor. -/
def FSDir.subdirs : FSDir → List (String × FSDir)
  | .mk s _ => s

/-- Files accessor. -/
def FSDir.files : FSDir → List (String × SourceFile)
  | .mk _ f => f

/-- Resolve a path (list of components) to a directory. -/
def lookupDir : FSDir → List String → Option FSDir
  | d, [] => some d
  | d, name :: rest =>
      match d.subdirs.find? (fun p => p.1 = name) with
      | some p => lookupDir p.2 rest
      | none => none

mutual
/-- `os.walk` (top-down) with the in-place pruning of
`iter_source_files`: ignored directory names are removed from the
recursion, and unless tests are included so is any directory literally
named `tests`; each visited directory yields its files. -/
def walkFS : FSDir → List String → Bool → List (List String × List (String × SourceFile))
  | .mk subdirs files, dirpath, include_tests =>
      (dirpath, files) :: walkSub subdirs dirpath include_tests

/-- Recursion over the (pruned) subdirectory list, in order. -/
def walkSub : List (String × FSDir) → List String → Bool →
    List (List String × List (String × SourceFile))
  | [], _, _ => []
  | (name, sub) :: rest, dirpath, include_tests =>
      (if IGNORED_DIRS.contains name ∨ (¬include_tests ∧ name = "tests") then []
       else walkFS sub (dirpath ++ [name]) include_tests) ++
        walkSub rest dirpath include_tests
end

/-- `scanner.iter_source_files`: the discovered supported-extension file
paths (in walk order), returned together with the contents they resolve
to.  A root that does not exist in the filesystem yields nothing —
`os.walk` reports no entries for it (its error callback defaults to
`None`) and no existence check is made. -/
def iterSourceFiles (fs : FSDir) (repo_path : List String) (include_tests : Bool) :
    List (List String × SourceFile) :=
  match lookupDir fs repo_path with
  | none => []
  | some root =>
      (walkFS root repo_path include_tests).flatMap fun entry =>
        (entry.2.filter (fun f => SUPPORTED_EXTENSIONS.contains (suffixOf f.1))).map
          fun f => (entry.1 ++ [f.1], f.2)

/-- `os.path.splitext`: the extension starts at the last dot of the final
path component, ignoring any leading dots of that component. -/
def splitextSuffix (path : String) : String :=
  let base := ((splitOnCh '/' path.toList).map String.mk).getLastD ""
  let cs := base.toList
  let lead := (cs.takeWhile (· = '.')).length
  let rest := cs.drop lead
  let tailLen := (rest.reverse.takeWhile (· ≠ '.')).length
  if tailLen = rest.length then "" else String.mk (rest.drop (rest.length - tailLen - 1))

/-- `scanner._module_name_from_path`. -/
def moduleNameFromPath (relative_file_path : String) : String :=
  let normalized := String.mk (relative_file_path.toList.map fun c =>
    if c = '\\' then '/' else c)
  let suffix := splitextSuffix normalized
  let normalized :=
    if SUPPORTED_EXTENSIONS.contains suffix then
      String.mk (normalized.toList.take (normalized.toList.length - suffix.length))
    else normalized
  let parts := ((splitOnCh '/' normalized.toList).map String.mk).filter (fun part => part ≠ "")
  let parts := if parts.getLastD "" = "__init__" then parts.dropLast else parts
  joinWith "." parts

/-- Ascending stable insertion by `(file_path, lineno)`. -/
def insertByPathLine (x : CodeEntity) : List CodeEntity → List CodeEntity
  | [] => [x]
  | y :: rest =>
      if x.file_path < y.file_path ∨ (x.file_path = y.file_path ∧ x.lineno < y.lineno) then
        x :: y :: rest
      else y :: insertByPathLine x rest

/-- Stable sort by `(file_path, lineno)`
(`entities.sort(key=lambda entity: (entity.file_path, entity.lineno))`). -/
def sortByPathLine (l : List CodeEntity) : List CodeEntity :=
  l.foldl (fun acc x => insertByPathLine x acc) []

/-- `scanner.extract_entities`: dispatch each discovered file to the
native-AST or lexical extractor and sort the result.  `Path.resolve` is
modelled as the identity (paths are already canonical in the model), and
the repo-relative path is the `/`-joined remainder after the root
components. -/
def extractEntities (fs : FSDir) (repo_path : List String) (include_tests : Bool) :
    List CodeEntity :=
  let entities := (iterSourceFiles fs repo_path include_tests).flatMap fun f =>
    let relative := joinWith "/" (f.1.drop repo_path.length)
    let module_name := moduleNameFromPath relative
    let suffix := suffixOf (f.1.getLastD "")
    if suffix = ".py" then extractPythonEntities relative module_name f.2
    else if SCRIPT_EXTENSIONS.contains suffix then
      extractScriptEntities relative module_name f.2.raw
    else []
  sortByPathLine entities

end Scanner

/-! ## Engine result assembly (`engine.py` against `models.py`)

`analyze_repo` ends by constructing the `AnalysisResult` dataclass with
keyword arguments.  A Python dataclass constructor call succeeds exactly
when every field without a default receives a value; the field and
keyword sets below are transcribed from `models.AnalysisResult`,
`engine.analyze_repo` and their callers. -/

namespace Engine

/-- The fields of `models.AnalysisResult` (all required: none has a
default). -/
def analysisResultFields : List String :=
  ["entities", "ai_signals", "git_evidence", "duplication_pairs",
   "runtime_evidence", "findings", "summary"]

/-- The keyword arguments `engine.analyze_repo` passes when constructing
its `AnalysisResult` (engine.py lines 139–146). -/
def analyzeRepoResultKeywords : List String :=
  ["entities", "ai_signals", "duplication_pairs", "runtime_evidence",
   "findings", "summary"]

/-- The parameters of `engine.analyze_repo` (engine.py lines 12–21). -/
def analyzeRepoParams : List String :=
  ["repo_path", "runtime_path", "time_window_days", "cost_per_invocation",
   "ai_threshold", "duplication_threshold", "min_duplicate_body_statements",
   "include_tests"]

/-- The keyword arguments the repository's own test
(`tests/test_engine.py`) passes to `analyze_repo`. -/
def engineTestCallKeywords : List String :=
  ["repo_path", "runtime_path", "time_window_days", "cost_per_invocation",
   "git_provenance_enabled"]

/-- The keyword arguments `cli.main` passes to `analyze_repo`
(cli.py lines 104–115). -/
def cliCallKeywords : List String :=
  ["repo_path", "runtime_path", "time_window_days", "cost_per_invocation",
   "ai_threshold", "duplication_threshold", "min_duplicate_body_statements",
   "min_duplicate_signature_chars", "include_tests", "git_provenance_enabled"]

/-- A Python dataclass construction succeeds iff every (defaultless)
field receives a keyword; otherwise it raises `TypeError`. -/
def dataclassConstructionOk (required supplied : List String) : Bool :=
  required.all (fun f => supplied.contains f)

/-- A Python call with keyword arguments binds iff every supplied keyword
names a declared parameter; an unknown keyword raises `TypeError`. -/
def keywordCallOk (params supplied : List String) : Bool :=
  supplied.all (fun k => params.contains k)

end Engine

/-! ## Helper lemmas -/

theorem mem_insertDesc {x a : DuplicationPair} {l : List DuplicationPair} :
    a ∈ Duplication.insertDesc x l ↔ a = x ∨ a ∈ l := by
  induction l with
  | nil => simp [Duplication.insertDesc]
  | cons y rest ih =>
      simp only [Duplication.insertDesc]
      split
      · simp [or_comm, or_left_comm]
      · simp [ih]
        tauto

theorem mem_sortByOverlapDesc_aux {a : DuplicationPair} (l acc : List DuplicationPair) :
    a ∈ l.foldl (fun acc x => Duplication.insertDesc x acc) acc ↔ a ∈ acc ∨ a ∈ l := by
  induction l generalizing acc with
  | nil => simp
  | cons x rest ih =>
      simp only [List.foldl_cons, ih, mem_insertDesc, List.mem_cons]
      tauto

theorem mem_sortByOverlapDesc {a : DuplicationPair} {l : List DuplicationPair} :
    a ∈ Duplication.sortByOverlapDesc l ↔ a ∈ l := by
  simp [Duplication.sortByOverlapDesc, mem_sortByOverlapDesc_aux]

theorem length_insertDesc (x : DuplicationPair) (l : List DuplicationPair) :
    (Duplication.insertDesc x l).length = l.length + 1 := by
  induction l with
  | nil => rfl
  | cons y rest ih =>
      simp only [Duplication.insertDesc]
      split
      · simp
      · simp [ih]

theorem length_sortByOverlapDesc_aux (l acc : List DuplicationPair) :
    (l.foldl (fun acc x => Duplication.insertDesc x acc) acc).length =
      acc.length + l.length := by
  induction l generalizing acc with
  | nil => simp
  | cons x rest ih => simp [ih, length_insertDesc]; omega

theorem length_sortByOverlapDesc (l : List DuplicationPair) :
    (Duplication.sortByOverlapDesc l).length = l.length := by
  simp [Duplication.sortByOverlapDesc, length_sortByOverlapDesc_aux]

theorem mem_insertByLineno {x a : CodeEntity} {l : List CodeEntity} :
    a ∈ Scanner.insertByLineno x l → a = x ∨ a ∈ l := by
  induction l with
  | nil => simp [Scanner.insertByLineno]
  | cons y rest ih =>
      simp only [Scanner.insertByLineno]
      split
      · simp [or_comm, or_left_comm]
      · simp only [List.mem_cons]
        rintro (h | h)
        · tauto
        · rcases ih h with h' | h' <;> tauto

theorem mem_sortByLineno_aux {a : CodeEntity} (l acc : List CodeEntity) :
    a ∈ l.foldl (fun acc x => Scanner.insertByLineno x acc) acc → a ∈ acc ∨ a ∈ l := by
  induction l generalizing acc with
  | nil => simp
  | cons x rest ih =>
      intro h
      rcases ih _ h with h' | h'
      · rcases mem_insertByLineno h' with h'' | h'' <;> simp [h'']
      · simp [h']

theorem mem_sortByLineno {a : CodeEntity} {l : List CodeEntity} :
    a ∈ Scanner.sortByLineno l → a ∈ l := by
  intro h
  rcases mem_sortByLineno_aux l [] h with h' | h'
  · simp at h'
  · exact h'

theorem length_filterMap_mono {α β : Type} (l : List α) (f g : α → Option β)
    (h : ∀ a, (f a).isSome → (g a).isSome) :
    (l.filterMap f).length ≤ (l.filterMap g).length := by
  induction l with
  | nil => simp
  | cons x rest ih =>
      rcases hf : f x with _ | b
      · rcases hg : g x with _ | c
        · simpa [List.filterMap_cons, hf, hg] using ih
        · simp only [List.filterMap_cons, hf, hg]
          exact le_trans ih (by simp)
      · have : (g x).isSome := h x (by simp [hf])
        rcases hg : g x with _ | c
        · rw [hg] at this; simp at this
        · simpa [List.filterMap_cons, hf, hg] using ih

/-! ## Label structure of the provenance scorer -/

namespace Provenance

/-- The labels the three git-evidence score-increasing rules append,
determined solely by the three positive conditions (the score-decreasing
rules appear nowhere here). -/
def gitPositiveLabels (git_evidence : Option GitProvenanceEvidence) : List String :=
  match git_evidence with
  | none => []
  | some ev =>
    if !ev.available then []
    else
      (if Q.ge (ev.line_commit_concentration.getD (qnat 0)) (qmk 85 100) ∧
          ev.blame_commit_count.getD 0 ≤ 2 then
        ["single-source commit concentration"] else []) ++
      (if ev.last_commit_age_days.getD 0 ≤ 45 ∧ ev.blame_commit_count.getD 0 ≤ 3 then
        ["recent introduction window"] else []) ++
      (if ev.file_author_count.getD 0 ≤ 1 ∧ ev.file_commit_count.getD 0 ≤ 3 then
        ["low-author diversity file"] else [])

/-- The labels of the six structural rules, each present exactly when its
rule fires. -/
def structuralLabels (entity : CodeEntity) : List String :=
  match firstFunctionNode entity.parsed with
  | some f =>
      (if guardClauseCount f ≥ 3 then ["uniform guard clauses"] else []) ++
      (if Q.ge (variableNameRatio f) (qmk 6 10) then ["generic variable naming"] else []) ++
      (if Q.ge (defensiveDensity f) (qmk 4 10) ∧ statementCount f ≥ 4 then
        ["high defensive branch density"] else []) ++
      (if repetitiveErrorMessages f then ["repetitive error messaging"] else []) ++
      (if genericReturnPattern f then ["generic return pipeline"] else []) ++
      (if statementCount f ≥ 12 ∧ ¬hasLoopOrTry f then ["long boilerplate flow"] else [])
  | none =>
      let src := entity.source
      (if scriptGuardClauseCount src ≥ 3 then ["uniform guard clauses"] else []) ++
      (if Q.ge (scriptVariableNameRatio src) (qmk 6 10) then
        ["generic variable naming"] else []) ++
      (if Q.ge (scriptDefensiveDensity src (scriptStatementCount src)) (qmk 35 100) ∧
          scriptStatementCount src ≥ 4 then ["high defensive branch density"] else []) ++
      (if scriptRepetitiveErrorMessages src then ["repetitive error messaging"] else []) ++
      (if scriptGenericReturnPattern src then ["generic return pipeline"] else []) ++
      (if scriptStatementCount src ≥ 12 ∧ ¬scriptHasLoop src then
        ["long boilerplate flow"] else [])

/-- The nine labels the scorer can ever emit: one per score-increasing
rule. -/
def ruleLabels : List String :=
  ["uniform guard clauses", "generic variable naming",
   "high defensive branch density", "repetitive error messaging",
   "generic return pipeline", "long boilerplate flow",
   "single-source commit concentration", "recent introduction window",
   "low-author diversity file"]

theorem applyGitAdjustments_signals (score : Q) (signals : List String)
    (git_evidence : Option GitProvenanceEvidence) :
    (applyGitAdjustments score signals git_evidence).2 =
      signals ++ gitPositiveLabels git_evidence := by
  cases git_evidence with
  | none => simp [applyGitAdjustments, gitPositiveLabels]
  | some ev =>
      simp only [applyGitAdjustments, gitPositiveLabels]
      by_cases hav : ev.available <;> simp [hav] <;>
        split <;> split <;> split <;> split <;> split <;> split <;> simp

theorem scoreEntityCore_signals (entity : CodeEntity)
    (git_evidence : Option GitProvenanceEvidence) :
    (scoreEntityCore entity git_evidence).2 =
      structuralLabels entity ++ gitPositiveLabels git_evidence := by
  unfold scoreEntityCore structuralLabels
  cases h : firstFunctionNode entity.parsed <;>
    simp only [applyGitAdjustments_signals, List.append_cancel_right_eq] <;>
    split <;> split <;> split <;> split <;> split <;> split <;> simp

theorem scoreEntity_signals {entity : CodeEntity} {threshold : Q}
    {git_evidence : Option GitProvenanceEvidence} {sig : AIProvenanceSignal}
    (h : scoreEntity entity threshold git_evidence = some sig) :
    sig.signals = structuralLabels entity ++ gitPositiveLabels git_evidence := by
  simp only [scoreEntity] at h
  split at h
  · exact absurd h (by simp)
  · cases h
    exact scoreEntityCore_signals entity git_evidence

/-- Is this statement a conditional with a single-statement body (the
shape whose failure stops the guard scan)? -/
def isSingleBodyIf : PyStmt → Bool
  | .ifStmt _ [_] _ => true
  | _ => false

/-- Is this statement a single-statement conditional whose body is a
single `Return`/`Raise` — the specification's guard-clause shape? -/
def isGuardReturnStmt : PyStmt → Bool
  | .ifStmt _ [b] _ => isReturnOrRaise b
  | _ => false

/-- What the code actually counts: guards inside the longest prefix of
the first six top-level statements consisting of single-statement
conditionals (the scan breaks at the first other statement). -/
def specGuardCount (f : FuncNode) : Nat :=
  ((f.body.take 6).takeWhile isSingleBodyIf).countP isGuardReturnStmt

theorem guardClauseLoop_eq (l : List PyStmt) :
    guardClauseLoop l = (l.takeWhile isSingleBodyIf).countP isGuardReturnStmt := by
  induction l with
  | nil => rfl
  | cons s rest ih =>
      cases s with
      | ifStmt t body orelse =>
          match body with
          | [] => simp [guardClauseLoop, List.takeWhile, isSingleBodyIf]
          | [b] =>
              simp [guardClauseLoop, List.takeWhile, isSingleBodyIf, isGuardReturnStmt,
                List.countP_cons, ih]
              omega
          | b :: c :: tail =>
              simp [guardClauseLoop, List.takeWhile, isSingleBodyIf]
      | funcDef n a b as => rfl
      | classDef n b => rfl
      | ret v => rfl
      | raiseStmt e => rfl
      | assign ts v => rfl
      | exprStmt v => rfl
      | forStmt a b c d => rfl
      | whileStmt a b c => rfl
      | tryStmt a b c d => rfl
      | pass => rfl

theorem guardClauseCount_eq (f : FuncNode) : guardClauseCount f = specGuardCount f :=
  guardClauseLoop_eq (f.body.take 6)

end Provenance

/-! ## Auxiliary membership and count lemmas for label lists -/

theorem mem_ite_singleton {c : Prop} [Decidable c] {x l : String} :
    (l ∈ (if c then [x] else [])) ↔ c ∧ l = x := by
  split <;> simp_all

theorem count_ite_singleton {c : Prop} [Decidable c] (x l : String) :
    ((if c then [x] else []) : List String).count l = if c ∧ x = l then 1 else 0 := by
  by_cases hc : c
  · by_cases hx : x = l <;> simp [hc, hx, List.count_cons]
  · simp [hc]

theorem count_gitPositiveLabels_structural (ev : Option GitProvenanceEvidence)
    (l : String) (h1 : l ≠ "single-source commit concentration")
    (h2 : l ≠ "recent introduction window") (h3 : l ≠ "low-author diversity file") :
    (Provenance.gitPositiveLabels ev).count l = 0 := by
  cases ev with
  | none => rfl
  | some e =>
      simp only [Provenance.gitPositiveLabels]
      split
      · rfl
      · rw [List.count_append, List.count_append, count_ite_singleton,
          count_ite_singleton, count_ite_singleton,
          if_neg (fun hh => h1 hh.2.symm), if_neg (fun hh => h2 hh.2.symm),
          if_neg (fun hh => h3 hh.2.symm)]

/-! ## C3 — uniform guard clauses -/

/-- C3 (amended): for a native-AST entity the `uniform guard clauses`
label is contributed exactly once precisely when at least 3 guards occur
in the *leading run* of single-statement conditionals among the first 6
top-level statements — the scan stops at the first statement that is not
a single-statement conditional, so guards after such a statement are not
counted, contrary to the claim's "regardless of where among those first 6
statements the guards sit". -/
theorem claim_C3 (entity : CodeEntity) (threshold : Q)
    (git_evidence : Option GitProvenanceEvidence) (f : Provenance.FuncNode)
    (sig : AIProvenanceSignal)
    (hf : Provenance.firstFunctionNode entity.parsed = some f)
    (h : Provenance.scoreEntity entity threshold git_evidence = some sig) :
    sig.signals.count "uniform guard clauses" =
      if 3 ≤ Provenance.specGuardCount f then 1 else 0 := by
  rw [Provenance.scoreEntity_signals h, List.count_append,
    count_gitPositiveLabels_structural git_evidence _ (by decide) (by decide) (by decide)]
  simp only [Provenance.structuralLabels, hf]
  rw [List.count_append, List.count_append, List.count_append, List.count_append,
    List.count_append]
  simp only [count_ite_singleton]
  rw [Provenance.guardClauseCount_eq]
  simp only [eq_false (show ¬("generic variable naming" = "uniform guard clauses") by decide),
    eq_false (show ¬("high defensive branch density" = "uniform guard clauses") by decide),
    eq_false (show ¬("repetitive error messaging" = "uniform guard clauses") by decide),
    eq_false (show ¬("generic return pipeline" = "uniform guard clauses") by decide),
    eq_false (show ¬("long boilerplate flow" = "uniform guard clauses") by decide),
    eq_self_iff_true, and_false, and_true, if_false, add_zero, zero_add]

/-- A guard-shaped conditional used by the concrete provenance entities. -/
def guardIfOn (v : String) : PyStmt :=
  .ifStmt (.pyname v .load) [.ret (some (.const (.pnum (qnat 1))))] []

/-- Function body with guards at positions 1, 3, 4, 5 and an assignment at
position 2: four of the first six statements are guards, but the leading
guard run has length one. -/
def c3Body : List PyStmt :=
  [guardIfOn "a", .assign [.pyname "x" .store] (.const (.pnum (qnat 0))),
   guardIfOn "b", guardIfOn "c", guardIfOn "d"]

/-- A native-AST entity for the C3 counterexample (source shown for
reference; its parse result is carried in `parsed`). -/
def c3Entity : CodeEntity :=
  { entity_id := "C3", file_path := "m.py", function_name := "f", qualified_name := "m.f"
    lineno := 1, end_lineno := 11
    source := "def f(a):\n    if a:\n        return 1\n    x = 0\n    if b:\n        return 1\n    if c:\n        return 1\n    if d:\n        return 1\n"
    parsed := some [.funcDef "f" ["a"] c3Body false] }

/-- C3 (counterexample to the claim as stated): in `c3Entity` 4 of the
first 6 top-level statements are single-statement conditionals whose body
is a single return, yet the emitted signal carries no
`uniform guard clauses` label (the scorer's scan stops at the second
statement, an assignment). -/
theorem claim_C3_cex :
    3 ≤ (c3Body.take 6).countP Provenance.isGuardReturnStmt ∧
      (Provenance.scoreEntity c3Entity (qnat 0) none).map
        (fun sig => sig.signals.count "uniform guard clauses") = some 0 := by
  decide

/-- Witness for C3 at the concrete entity. -/
theorem claim_C3_witness :
    (Provenance.scoreEntity c3Entity (qnat 0) none).map AIProvenanceSignal.signals =
        some ["high defensive branch density"] ∧
      ([("high defensive branch density" : String)].count "uniform guard clauses" =
        if 3 ≤ Provenance.specGuardCount ⟨"f", ["a"], c3Body, false⟩ then 1 else 0) := by
  constructor
  · decide
  · exact claim_C3 c3Entity (qnat 0) none ⟨"f", ["a"], c3Body, false⟩
      { entity_id := "C3", ai_probability := ⟨20, 100, by decide⟩, confidence := "medium"
        signals := ["high defensive branch density"] } (by rfl) (by rfl)

/-! ## C4 — high defensive branch density -/

theorem gitPositiveLabels_cases (ev : Option GitProvenanceEvidence) :
    ∀ l ∈ Provenance.gitPositiveLabels ev,
      l = "single-source commit concentration" ∨ l = "recent introduction window" ∨
        l = "low-author diversity file" := by
  intro l hl
  cases ev with
  | none => simp [Provenance.gitPositiveLabels] at hl
  | some e =>
      simp only [Provenance.gitPositiveLabels] at hl
      split at hl
      · simp at hl
      · simp only [List.mem_append, mem_ite_singleton, or_assoc] at hl
        rcases hl with ⟨_, rfl⟩ | ⟨_, rfl⟩ | ⟨_, rfl⟩ <;> simp

/-- C4 (amended): the `high defensive branch density` weight is applied
exactly when the number of `If` nodes anywhere in the function's walk —
nested conditionals included — divided by the top-level statement count
reaches 0.4 (with at least 4 top-level statements), and the
lexically-scanned approximation uses the lower cutoff 0.35, not the
claimed 0.4. -/
theorem claim_C4 (entity : CodeEntity) (threshold : Q)
    (git_evidence : Option GitProvenanceEvidence) (sig : AIProvenanceSignal)
    (h : Provenance.scoreEntity entity threshold git_evidence = some sig) :
    (∀ f, Provenance.firstFunctionNode entity.parsed = some f →
      ("high defensive branch density" ∈ sig.signals ↔
        (Q.ge (Q.div (qnat (Provenance.walkIfCount f))
            (qnat (max (Provenance.statementCount f) 1))) (qmk 4 10) ∧
          4 ≤ Provenance.statementCount f))) ∧
    (Provenance.firstFunctionNode entity.parsed = none →
      ("high defensive branch density" ∈ sig.signals ↔
        (Q.ge (Provenance.scriptDefensiveDensity entity.source
            (Provenance.scriptStatementCount entity.source)) (qmk 35 100) ∧
          4 ≤ Provenance.scriptStatementCount entity.source))) := by
  have hg : "high defensive branch density" ∉ Provenance.gitPositiveLabels git_evidence := by
    intro hmem
    rcases gitPositiveLabels_cases git_evidence _ hmem with h' | h' | h' <;> exact absurd h' (by decide)
  rw [Provenance.scoreEntity_signals h]
  constructor
  · intro f hf
    simp only [List.mem_append, Provenance.structuralLabels, hf, mem_ite_singleton, or_assoc,
      eq_false (show ¬("high defensive branch density" = "uniform guard clauses") by decide),
      eq_false (show ¬("high defensive branch density" = "generic variable naming") by decide),
      eq_false (show ¬("high defensive branch density" = "repetitive error messaging") by decide),
      eq_false (show ¬("high defensive branch density" = "generic return pipeline") by decide),
      eq_false (show ¬("high defensive branch density" = "long boilerplate flow") by decide),
      and_false, false_or, or_false, and_true]
    simp [hg, Provenance.defensiveDensity, ge_iff_le]
  · intro hf
    simp only [List.mem_append, Provenance.structuralLabels, hf, mem_ite_singleton, or_assoc,
      eq_false (show ¬("high defensive branch density" = "uniform guard clauses") by decide),
      eq_false (show ¬("high defensive branch density" = "generic variable naming") by decide),
      eq_false (show ¬("high defensive branch density" = "repetitive error messaging") by decide),
      eq_false (show ¬("high defensive branch density" = "generic return pipeline") by decide),
      eq_false (show ¬("high defensive branch density" = "long boilerplate flow") by decide),
      and_false, false_or, or_false, and_true]
    simp [hg]

/-- Function body for the C4 counterexample: four top-level statements, a
single top-level conditional containing two nested conditionals. -/
def c4Body : List PyStmt :=
  [.ifStmt (.pyname "a" .load)
      [.ifStmt (.pyname "b" .load)
        [.ifStmt (.pyname "c" .load)
          [.assign [.pyname "x" .store] (.const (.pnum (qnat 1)))] []] []] [],
   .assign [.pyname "y" .store] (.const (.pnum (qnat 1))),
   .assign [.pyname "z" .store] (.const (.pnum (qnat 1))),
   .assign [.pyname "w" .store] (.const (.pnum (qnat 1)))]

/-- Native-AST entity for the C4 counterexample. -/
def c4AstEntity : CodeEntity :=
  { entity_id := "C4", file_path := "m.py", function_name := "g", qualified_name := "m.g"
    lineno := 1, end_lineno := 8
    source := "def g(a, b, c):\n    if a:\n        if b:\n            if c:\n                x = 1\n    y = 1\n    z = 1\n    w = 1\n"
    parsed := some [.funcDef "g" ["a", "b", "c"] c4Body false] }

/-- Script source with `if (` density `3/8 = 0.375`, between the
implemented cutoff 0.35 and the claimed cutoff 0.4. -/
def c4ScriptSource : String :=
  "if (a) \x7b x = 1; \x7d if (b) \x7b x = 2; \x7d if (c) \x7b x = 3; \x7d x = 4; y = 5;"

/-- Lexically-scanned entity for the C4 counterexample (the source is not
parseable Python, so the parse result is `none`). -/
def c4ScriptEntity : CodeEntity :=
  { entity_id := "C4S", file_path := "a.js", function_name := "f", qualified_name := "a.f"
    lineno := 1, end_lineno := 1
    source := c4ScriptSource
    parsed := none }

/-- C4 (counterexample to the claim as stated): (i) `c4AstEntity` receives
the density label although its top-level conditional count over top-level
statements is only `1/4 < 0.4` — the numerator counts nested
conditionals; (ii) `c4ScriptEntity` receives the density label at lexical
density `3/8 = 0.375 < 0.4` — the lexical cutoff is 0.35, not 0.4. -/
theorem claim_C4_cex :
    ((Provenance.scoreEntity c4AstEntity (qnat 0) none).map AIProvenanceSignal.signals =
        some ["high defensive branch density"] ∧
      ¬ Q.ge (Q.div (qnat (c4Body.countP Provenance.isIfStmt)) (qnat c4Body.length))
        (qmk 4 10)) ∧
    ((Provenance.scoreEntity c4ScriptEntity (qnat 0) none).map AIProvenanceSignal.signals =
        some ["high defensive branch density"] ∧
      Provenance.scriptDefensiveDensity c4ScriptSource
          (Provenance.scriptStatementCount c4ScriptSource) = qmk 3 8 ∧
      ¬ Q.ge (qmk 3 8) (qmk 4 10)) := by
  decide

/-- Witness for C4 at the concrete lexical entity. -/
theorem claim_C4_witness :
    ("high defensive branch density" ∈ (["high defensive branch density"] : List String)) ↔
      (Q.ge (Provenance.scriptDefensiveDensity c4ScriptEntity.source
          (Provenance.scriptStatementCount c4ScriptEntity.source)) (qmk 35 100) ∧
        4 ≤ Provenance.scriptStatementCount c4ScriptEntity.source) :=
  (claim_C4 c4ScriptEntity (qnat 0) none
      { entity_id := "C4S", ai_probability := ⟨20, 100, by decide⟩, confidence := "medium"
        signals := ["high defensive branch density"] } (by rfl)).2 (by rfl)

/-! ## C10 — signal labels account only for score-increasing rules -/

theorem structuralLabels_cases (entity : CodeEntity) :
    ∀ l ∈ Provenance.structuralLabels entity,
      l = "uniform guard clauses" ∨ l = "generic variable naming" ∨
        l = "high defensive branch density" ∨ l = "repetitive error messaging" ∨
        l = "generic return pipeline" ∨ l = "long boilerplate flow" := by
  intro l hl
  unfold Provenance.structuralLabels at hl
  rcases hp : Provenance.firstFunctionNode entity.parsed with _ | f <;> rw [hp] at hl <;>
    simp only [List.mem_append, mem_ite_singleton, or_assoc] at hl <;>
    rcases hl with ⟨_, rfl⟩ | ⟨_, rfl⟩ | ⟨_, rfl⟩ | ⟨_, rfl⟩ | ⟨_, rfl⟩ | ⟨_, rfl⟩ <;> simp

/-- C10: every label of a returned provenance signal names one of the
nine score-increasing rules (six structural, three git-positive); the
three score-decreasing git adjustments (blame commit count ≥ 6, blame
author count ≥ 3, last-commit age ≥ 365 days) change the score only — the
label list produced by the git-adjustment step is exactly the incoming
list plus the labels of the positive rules that fired, so score
reductions are never accounted for in the label list. -/
theorem claim_C10 :
    (∀ (entity : CodeEntity) (threshold : Q)
        (git_evidence : Option GitProvenanceEvidence) (sig : AIProvenanceSignal),
      Provenance.scoreEntity entity threshold git_evidence = some sig →
        ∀ l ∈ sig.signals, l ∈ Provenance.ruleLabels) ∧
    (∀ (score : Q) (signals : List String) (git_evidence : Option GitProvenanceEvidence),
      (Provenance.applyGitAdjustments score signals git_evidence).2 =
        signals ++ Provenance.gitPositiveLabels git_evidence) := by
  constructor
  · intro entity threshold git_evidence sig h l hl
    rw [Provenance.scoreEntity_signals h] at hl
    rcases List.mem_append.mp hl with hs | hgit
    · rcases structuralLabels_cases entity l hs with h' | h' | h' | h' | h' | h' <;>
        subst h' <;> decide
    · rcases gitPositiveLabels_cases git_evidence l hgit with h' | h' | h' <;>
        subst h' <;> decide
  · exact Provenance.applyGitAdjustments_signals

/-- Git evidence triggering one positive rule and all three negative
rules. -/
def c10Evidence : GitProvenanceEvidence :=
  { entity_id := "G", available := true, blame_commit_count := some 7
    blame_author_count := some 3, line_commit_concentration := some (qmk 9 10)
    last_commit_age_days := some 400, file_commit_count := some 1
    file_author_count := some 1 }

/-- Witness for C10: the density label of a concrete signal is among the
rule labels, and on `c10Evidence` the adjustment step appends exactly the
one positive label even though all three score-decreasing rules fire. -/
theorem claim_C10_witness :
    ("high defensive branch density" ∈ Provenance.ruleLabels) ∧
      ((Provenance.applyGitAdjustments (qnat 0) ["x"] (some c10Evidence)).2 =
        ["x"] ++ Provenance.gitPositiveLabels (some c10Evidence)) ∧
      Provenance.gitPositiveLabels (some c10Evidence) = ["low-author diversity file"] :=
  ⟨claim_C10.1 c4ScriptEntity (qnat 0) none
      { entity_id := "C4S", ai_probability := ⟨20, 100, by decide⟩, confidence := "medium"
        signals := ["high defensive branch density"] } (by rfl)
      "high defensive branch density" (by decide),
    claim_C10.2 (qnat 0) ["x"] (some c10Evidence), by decide⟩

/-! ## C9 — brace matching skips strings and comments -/

theorem fmbGo_skip_dquote (cs : List Char) (inner : List Char)
    (h : ∀ ch ∈ inner, ch ≠ '"' ∧ ch ≠ '\\') :
    ∀ (idx fuel' : Nat) (depth : Int) (rest : List Char),
    cs.drop idx = inner ++ '"' :: rest →
    Scanner.findMatchingBraceGo cs (fuel' + inner.length + 1) idx depth
        false true false false false =
      Scanner.findMatchingBraceGo cs fuel' (idx + inner.length + 1) depth
        false false false false false := by
  induction inner with
  | nil =>
      intro idx fuel' depth rest hdrop
      rw [Scanner.findMatchingBraceGo.eq_def]
      simp [hdrop]
  | cons c inner' ih =>
      intro idx fuel' depth rest hdrop
      have hc := h c (by simp)
      have hdrop' : cs.drop (idx + 1) = inner' ++ '"' :: rest := by
        have h2 : cs.drop (idx + 1) = (cs.drop idx).drop 1 := by rw [List.drop_drop]
        rw [h2, hdrop]
        simp
      have hstep : fuel' + (c :: inner').length + 1 = (fuel' + inner'.length + 1) + 1 := by
        simp
        omega
      rw [hstep, Scanner.findMatchingBraceGo.eq_def]
      simp only [hdrop]
      simp [hc.1, hc.2]
      rw [show idx + (inner'.length + 1) + 1 = idx + 1 + inner'.length + 1 by omega]
      exact ih (fun ch hch => h ch (by simp [hch])) (idx + 1) fuel' depth rest hdrop'

theorem fmbGo_skip_squote (cs : List Char) (inner : List Char)
    (h : ∀ ch ∈ inner, ch ≠ apos ∧ ch ≠ '\\') :
    ∀ (idx fuel' : Nat) (depth : Int) (rest : List Char),
    cs.drop idx = inner ++ apos :: rest →
    Scanner.findMatchingBraceGo cs (fuel' + inner.length + 1) idx depth
        true false false false false =
      Scanner.findMatchingBraceGo cs fuel' (idx + inner.length + 1) depth
        false false false false false := by
  induction inner with
  | nil =>
      intro idx fuel' depth rest hdrop
      rw [Scanner.findMatchingBraceGo.eq_def]
      simp [hdrop, show apos ≠ '\\' by decide]
  | cons c inner' ih =>
      intro idx fuel' depth rest hdrop
      have hc := h c (by simp)
      have hdrop' : cs.drop (idx + 1) = inner' ++ apos :: rest := by
        have h2 : cs.drop (idx + 1) = (cs.drop idx).drop 1 := by rw [List.drop_drop]
        rw [h2, hdrop]
        simp
      have hstep : fuel' + (c :: inner').length + 1 = (fuel' + inner'.length + 1) + 1 := by
        simp
        omega
      rw [hstep, Scanner.findMatchingBraceGo.eq_def]
      simp only [hdrop]
      simp [hc.1, hc.2]
      rw [show idx + (inner'.length + 1) + 1 = idx + 1 + inner'.length + 1 by omega]
      exact ih (fun ch hch => h ch (by simp [hch])) (idx + 1) fuel' depth rest hdrop'

theorem fmbGo_skip_template (cs : List Char) (inner : List Char)
    (h : ∀ ch ∈ inner, ch ≠ backquote ∧ ch ≠ '\\') :
    ∀ (idx fuel' : Nat) (depth : Int) (rest : List Char),
    cs.drop idx = inner ++ backquote :: rest →
    Scanner.findMatchingBraceGo cs (fuel' + inner.length + 1) idx depth
        false false true false false =
      Scanner.findMatchingBraceGo cs fuel' (idx + inner.length + 1) depth
        false false false false false := by
  induction inner with
  | nil =>
      intro idx fuel' depth rest hdrop
      rw [Scanner.findMatchingBraceGo.eq_def]
      simp [hdrop, show backquote ≠ '\\' by decide]
  | cons c inner' ih =>
      intro idx fuel' depth rest hdrop
      have hc := h c (by simp)
      have hdrop' : cs.drop (idx + 1) = inner' ++ backquote :: rest := by
        have h2 : cs.drop (idx + 1) = (cs.drop idx).drop 1 := by rw [List.drop_drop]
        rw [h2, hdrop]
        simp
      have hstep : fuel' + (c :: inner').length + 1 = (fuel' + inner'.length + 1) + 1 := by
        simp
        omega
      rw [hstep, Scanner.findMatchingBraceGo.eq_def]
      simp only [hdrop]
      simp [hc.1, hc.2]
      rw [show idx + (inner'.length + 1) + 1 = idx + 1 + inner'.length + 1 by omega]
      exact ih (fun ch hch => h ch (by simp [hch])) (idx + 1) fuel' depth rest hdrop'

theorem fmbGo_skip_lineComment (cs : List Char) (inner : List Char)
    (h : ∀ ch ∈ inner, ch ≠ '\n') :
    ∀ (idx fuel' : Nat) (depth : Int) (rest : List Char),
    cs.drop idx = inner ++ '\n' :: rest →
    Scanner.findMatchingBraceGo cs (fuel' + inner.length + 1) idx depth
        false false false true false =
      Scanner.findMatchingBraceGo cs fuel' (idx + inner.length + 1) depth
        false false false false false := by
  induction inner with
  | nil =>
      intro idx fuel' depth rest hdrop
      rw [Scanner.findMatchingBraceGo.eq_def]
      simp [hdrop]
  | cons c inner' ih =>
      intro idx fuel' depth rest hdrop
      have hc := h c (by simp)
      have hdrop' : cs.drop (idx + 1) = inner' ++ '\n' :: rest := by
        have h2 : cs.drop (idx + 1) = (cs.drop idx).drop 1 := by rw [List.drop_drop]
        rw [h2, hdrop]
        simp
      have hstep : fuel' + (c :: inner').length + 1 = (fuel' + inner'.length + 1) + 1 := by
        simp
        omega
      rw [hstep, Scanner.findMatchingBraceGo.eq_def]
      simp only [hdrop]
      simp [hc]
      rw [show idx + (inner'.length + 1) + 1 = idx + 1 + inner'.length + 1 by omega]
      exact ih (fun ch hch => h ch (by simp [hch])) (idx + 1) fuel' depth rest hdrop'

theorem fmbGo_skip_blockComment (cs : List Char) (inner : List Char)
    (h : ∀ ch ∈ inner, ch ≠ '*') :
    ∀ (idx fuel' : Nat) (depth : Int) (rest : List Char),
    cs.drop idx = inner ++ '*' :: '/' :: rest →
    Scanner.findMatchingBraceGo cs (fuel' + inner.length + 1) idx depth
        false false false false true =
      Scanner.findMatchingBraceGo cs fuel' (idx + inner.length + 2) depth
        false false false false false := by
  induction inner with
  | nil =>
      intro idx fuel' depth rest hdrop
      rw [Scanner.findMatchingBraceGo.eq_def]
      simp [hdrop]
  | cons c inner' ih =>
      intro idx fuel' depth rest hdrop
      have hc := h c (by simp)
      have hdrop' : cs.drop (idx + 1) = inner' ++ '*' :: '/' :: rest := by
        have h2 : cs.drop (idx + 1) = (cs.drop idx).drop 1 := by rw [List.drop_drop]
        rw [h2, hdrop]
        simp
      have hstep : fuel' + (c :: inner').length + 1 = (fuel' + inner'.length + 1) + 1 := by
        simp
        omega
      rw [hstep, Scanner.findMatchingBraceGo.eq_def]
      simp only [hdrop]
      simp [hc]
      rw [show idx + (inner'.length + 1) + 2 = idx + 1 + inner'.length + 2 by omega]
      exact ih (fun ch hch => h ch (by simp [hch])) (idx + 1) fuel' depth rest hdrop'

theorem drop_prefix_to_last {α : Type} (pre : List α) (last : α) (n : Nat)
    (hn : n = pre.length) : List.drop n (pre ++ [last]) = [last] := by
  subst hn
  exact List.drop_left _ _

/-- C9: the brace matcher returns the index of the closing brace at
matching nesting depth, and brace characters inside double-, single- or
template-quoted string literals or inside line/block comments never alter
the tracked depth: for an arbitrary literal/comment body `inner` (which
may contain any number of braces), the matcher bypasses it entirely and
closes at the outer brace; escaped quotes inside literals are skipped
(concrete conjunct); and when no matching closing brace exists it reports
`-1` and the lexical extractor discards the candidate entirely (concrete
conjunct: an unterminated function body yields no entity). -/
theorem claim_C9 :
    (∀ inner : List Char, (∀ ch ∈ inner, ch ≠ '"' ∧ ch ≠ '\\') →
      Scanner.findMatchingBrace (lbrace :: '"' :: (inner ++ ['"', rbrace])) 0 =
        ((inner.length + 3 : Nat) : Int)) ∧
    (∀ inner : List Char, (∀ ch ∈ inner, ch ≠ apos ∧ ch ≠ '\\') →
      Scanner.findMatchingBrace (lbrace :: apos :: (inner ++ [apos, rbrace])) 0 =
        ((inner.length + 3 : Nat) : Int)) ∧
    (∀ inner : List Char, (∀ ch ∈ inner, ch ≠ backquote ∧ ch ≠ '\\') →
      Scanner.findMatchingBrace (lbrace :: backquote :: (inner ++ [backquote, rbrace])) 0 =
        ((inner.length + 3 : Nat) : Int)) ∧
    (∀ inner : List Char, (∀ ch ∈ inner, ch ≠ '\n') →
      Scanner.findMatchingBrace (lbrace :: '/' :: '/' :: (inner ++ ['\n', rbrace])) 0 =
        ((inner.length + 4 : Nat) : Int)) ∧
    (∀ inner : List Char, (∀ ch ∈ inner, ch ≠ '*') →
      Scanner.findMatchingBrace (lbrace :: '/' :: '*' :: (inner ++ ['*', '/', rbrace])) 0 =
        ((inner.length + 5 : Nat) : Int)) ∧
    Scanner.findMatchingBrace "\x7b \"a\\\"\x7d\" \x7d".toList 0 = 9 ∧
    Scanner.extractScriptEntities "a.js" "m" "function f() \x7b return 1;" = [] := by
  refine ⟨?_, ?_, ?_, ?_, ?_, by decide, by rfl⟩
  · intro inner h
    unfold Scanner.findMatchingBrace
    rw [Scanner.findMatchingBraceGo.eq_def]
    simp only [List.length_cons, List.length_append]
    simp [lbrace, backquote, apos]
    rw [Scanner.findMatchingBraceGo.eq_def]
    simp [lbrace, backquote, apos]
    rw [show inner.length + 3 = 2 + inner.length + 1 by omega]
    rw [fmbGo_skip_dquote _ inner h 2 2 1 [rbrace] (by simp)]
    rw [Scanner.findMatchingBraceGo.eq_def]
    simp only [List.drop_succ_cons]
    rw [show List.drop (2 + inner.length) ('"' :: (inner ++ ['"', rbrace])) = [rbrace] from by
        rw [show ('"' :: (inner ++ ['"', rbrace])) = (('"' :: inner) ++ ['"']) ++ [rbrace] by simp]
        exact drop_prefix_to_last _ _ _ (by simp; omega)]
    simp [lbrace, rbrace, backquote, apos]
    omega
  · intro inner h
    unfold Scanner.findMatchingBrace
    rw [Scanner.findMatchingBraceGo.eq_def]
    simp only [List.length_cons, List.length_append]
    simp [lbrace, backquote, apos]
    rw [Scanner.findMatchingBraceGo.eq_def]
    simp [lbrace, backquote, apos]
    rw [show inner.length + 3 = 2 + inner.length + 1 by omega]
    rw [fmbGo_skip_squote _ inner h 2 2 1 [rbrace] (by simp [apos])]
    rw [Scanner.findMatchingBraceGo.eq_def]
    simp only [List.drop_succ_cons]
    rw [show List.drop (2 + inner.length)
          (Char.ofNat 39 :: (inner ++ [Char.ofNat 39, rbrace])) = [rbrace] from by
        rw [show (Char.ofNat 39 :: (inner ++ [Char.ofNat 39, rbrace])) =
          ((Char.ofNat 39 :: inner) ++ [Char.ofNat 39]) ++ [rbrace] by simp]
        exact drop_prefix_to_last _ _ _ (by simp; omega)]
    simp [lbrace, rbrace, backquote, apos]
    omega
  · intro inner h
    unfold Scanner.findMatchingBrace
    rw [Scanner.findMatchingBraceGo.eq_def]
    simp only [List.length_cons, List.length_append]
    simp [lbrace, backquote, apos]
    rw [Scanner.findMatchingBraceGo.eq_def]
    simp [lbrace, backquote, apos]
    rw [show inner.length + 3 = 2 + inner.length + 1 by omega]
    rw [fmbGo_skip_template _ inner h 2 2 1 [rbrace] (by simp [backquote])]
    rw [Scanner.findMatchingBraceGo.eq_def]
    simp only [List.drop_succ_cons]
    rw [show List.drop (2 + inner.length)
          (Char.ofNat 96 :: (inner ++ [Char.ofNat 96, rbrace])) = [rbrace] from by
        rw [show (Char.ofNat 96 :: (inner ++ [Char.ofNat 96, rbrace])) =
          ((Char.ofNat 96 :: inner) ++ [Char.ofNat 96]) ++ [rbrace] by simp]
        exact drop_prefix_to_last _ _ _ (by simp; omega)]
    simp [lbrace, rbrace, backquote, apos]
    omega
  · intro inner h
    unfold Scanner.findMatchingBrace
    rw [Scanner.findMatchingBraceGo.eq_def]
    simp only [List.length_cons, List.length_append]
    simp [lbrace, backquote, apos]
    rw [Scanner.findMatchingBraceGo.eq_def]
    simp [lbrace, backquote, apos]
    rw [show inner.length + 4 = 3 + inner.length + 1 by omega]
    rw [fmbGo_skip_lineComment _ inner h 3 3 1 [rbrace] (by simp)]
    rw [Scanner.findMatchingBraceGo.eq_def]
    simp only [List.drop_succ_cons]
    rw [show List.drop (3 + inner.length)
          ('/' :: '/' :: (inner ++ ['\n', rbrace])) = [rbrace] from by
        rw [show ('/' :: '/' :: (inner ++ ['\n', rbrace])) =
          (('/' :: '/' :: inner) ++ ['\n']) ++ [rbrace] by simp]
        exact drop_prefix_to_last _ _ _ (by simp; omega)]
    simp [lbrace, rbrace, backquote, apos]
    omega
  · intro inner h
    unfold Scanner.findMatchingBrace
    rw [Scanner.findMatchingBraceGo.eq_def]
    simp only [List.length_cons, List.length_append]
    simp [lbrace, backquote, apos]
    rw [Scanner.findMatchingBraceGo.eq_def]
    simp [lbrace, backquote, apos]
    rw [show inner.length + 5 = 4 + inner.length + 1 by omega]
    rw [fmbGo_skip_blockComment _ inner h 3 4 1 [rbrace] (by simp)]
    rw [Scanner.findMatchingBraceGo.eq_def]
    simp only [List.drop_succ_cons]
    rw [show List.drop (3 + inner.length)
          ('*' :: (inner ++ ['*', '/', rbrace])) = [rbrace] from by
        rw [show ('*' :: (inner ++ ['*', '/', rbrace])) =
          (('*' :: inner) ++ ['*', '/']) ++ [rbrace] by simp]
        exact drop_prefix_to_last _ _ _ (by simp; omega)]
    simp [lbrace, rbrace, backquote, apos]
    omega

/-- Witness for C9: instantiations of the universally quantified parts at
a concrete string/comment body containing braces; the hypotheses are
discharged by computation. -/
theorem claim_C9_witness :
    Scanner.findMatchingBrace
        (lbrace :: '"' :: (([lbrace, lbrace, 'x', rbrace] ++ ['"', rbrace]) : List Char)) 0 =
      (7 : Int) ∧
    Scanner.findMatchingBrace
        (lbrace :: '/' :: '/' :: (([rbrace, rbrace] ++ ['\n', rbrace]) : List Char)) 0 =
      (6 : Int) := by
  constructor
  · exact claim_C9.1 [lbrace, lbrace, 'x', rbrace] (by decide)
  · exact claim_C9.2.2.2.1 [rbrace, rbrace] (by decide)

/-! ## C1 — the exposed analyze operation versus its own data model,
tests and command-line caller -/

/-- C1: the claim is right about the intended interface and the engine
code is wrong.  `models.AnalysisResult` requires a `git_evidence` field,
but `engine.analyze_repo` constructs the result without it, so every
invocation — whatever the root — raises `TypeError` instead of returning
a result; moreover `analyze_repo` declares no git-evidence flag, while the
repository's own test and its CLI pass `git_provenance_enabled=...` (and
the CLI also `min_duplicate_signature_chars=...`), which `analyze_repo`
rejects as unknown keywords. -/
theorem claim_C1 :
    ("git_evidence" ∈ Engine.analysisResultFields ∧
      "git_evidence" ∉ Engine.analyzeRepoResultKeywords ∧
      Engine.dataclassConstructionOk Engine.analysisResultFields
        Engine.analyzeRepoResultKeywords = false) ∧
    ("git_provenance_enabled" ∉ Engine.analyzeRepoParams ∧
      "git_provenance_enabled" ∈ Engine.engineTestCallKeywords ∧
      Engine.keywordCallOk Engine.analyzeRepoParams Engine.engineTestCallKeywords = false ∧
      Engine.keywordCallOk Engine.analyzeRepoParams Engine.cliCallKeywords = false) := by
  decide

/-! ## C2 — nonexistent root path -/

/-- C2 (amended): the code performs no root-existence check: for a root
missing from the filesystem, `os.walk` yields nothing, so file iteration
returns no files and `extract_entities` silently returns the empty entity
sequence; no configuration error is surfaced. -/
theorem claim_C2 (fs : Scanner.FSDir) (repo_path : List String) (include_tests : Bool)
    (h : Scanner.lookupDir fs repo_path = none) :
    Scanner.iterSourceFiles fs repo_path include_tests = [] ∧
      Scanner.extractEntities fs repo_path include_tests = [] := by
  constructor
  · simp [Scanner.iterSourceFiles, h]
  · simp [Scanner.extractEntities, Scanner.iterSourceFiles, h, Scanner.sortByPathLine]

/-- Witness for C2 at a concrete filesystem. -/
theorem claim_C2_witness :
    Scanner.iterSourceFiles (Scanner.FSDir.mk [] []) ["missing"] false = [] ∧
      Scanner.extractEntities (Scanner.FSDir.mk [] []) ["missing"] false = [] :=
  claim_C2 (Scanner.FSDir.mk [] []) ["missing"] false (by rfl)

/-- C2 (counterexample to the claim as stated): on a filesystem whose only
source file lives under `src`, analysing the nonexistent root `nope`
does not surface any configuration error — the scan proceeds and returns
the empty (zero-entity) result, while the same machinery on the existing
root `src` does produce entities. -/
theorem claim_C2_cex :
    Scanner.extractEntities
        (Scanner.FSDir.mk
          [("src", Scanner.FSDir.mk []
            [("app.js", ⟨"function f() \x7b return 1; \x7d", none⟩)])] [])
        ["nope"] false = [] ∧
      (Scanner.extractEntities
        (Scanner.FSDir.mk
          [("src", Scanner.FSDir.mk []
            [("app.js", ⟨"function f() \x7b return 1; \x7d", none⟩)])] [])
        ["src"] false).map (fun e => e.qualified_name) = ["app.f"] := by
  constructor
  · rfl
  · rfl

/-! ## C5 — duplication pair symmetry -/

theorem dictInsert_keys_nodup (m : List (String × String)) (k v : String)
    (h : (m.map Prod.fst).Nodup) :
    ((Duplication.dictInsert m k v).map Prod.fst).Nodup := by
  unfold Duplication.dictInsert
  split
  · have hkeys : (m.map (fun p => if p.1 = k then (k, v) else p)).map Prod.fst =
        m.map Prod.fst := by
      rw [List.map_map]
      apply List.map_congr_left
      intro p _
      by_cases hp1 : p.1 = k <;> simp [hp1]
    rw [hkeys]
    exact h
  · rename_i hany
    simp only [List.any_eq_true, decide_eq_true_eq, not_exists, not_and] at hany
    rw [List.map_append, List.nodup_append]
    refine ⟨h, List.nodup_singleton k, ?_⟩
    intro x hx hx2
    simp only [List.map_cons, List.map_nil, List.mem_singleton] at hx2
    subst hx2
    obtain ⟨p, hp, hpk⟩ := List.mem_map.mp hx
    exact hany p hp hpk

theorem signaturesDict_keys_nodup (entities : List CodeEntity) (min_body_statements : Nat) :
    ((Duplication.signaturesDict entities min_body_statements).map Prod.fst).Nodup := by
  have go : ∀ (es : List CodeEntity) (m : List (String × String)),
      (m.map Prod.fst).Nodup →
      ((es.foldl (fun m entity =>
          match Duplication.normalizedSignature entity min_body_statements with
          | some signature =>
              if signature ≠ "" then Duplication.dictInsert m entity.entity_id signature
              else m
          | none => m) m).map Prod.fst).Nodup := by
    intro es
    induction es with
    | nil => intro m h; simpa using h
    | cons e es ih =>
        intro m h
        rw [List.foldl_cons]
        apply ih
        rcases hsig : Duplication.normalizedSignature e min_body_statements with _ | s
        · simpa [hsig] using h
        · by_cases hs : s = ""
          · simpa [hsig, hs] using h
          · simpa [hsig, hs] using dictInsert_keys_nodup m e.entity_id s h
  exact go entities [] (by simp)

theorem mem_orderedPairs {a b : String} :
    ∀ {l : List String}, (a, b) ∈ Duplication.orderedPairs l → a ∈ l ∧ b ∈ l := by
  intro l
  induction l with
  | nil => intro h; simp [Duplication.orderedPairs] at h
  | cons x rest ih =>
      intro h
      simp only [Duplication.orderedPairs, List.mem_append, List.mem_map] at h
      rcases h with ⟨y, hy, hxy⟩ | h
      · injection hxy with h1 h2
        subst h1; subst h2
        exact ⟨List.mem_cons_self x rest, List.mem_cons_of_mem x hy⟩
      · obtain ⟨ha, hb⟩ := ih h
        exact ⟨List.mem_cons_of_mem x ha, List.mem_cons_of_mem x hb⟩

theorem orderedPairs_ne {a b : String} :
    ∀ {l : List String}, l.Nodup → (a, b) ∈ Duplication.orderedPairs l → a ≠ b := by
  intro l
  induction l with
  | nil => intro _ h; simp [Duplication.orderedPairs] at h
  | cons x rest ih =>
      intro hnd h
      rw [List.nodup_cons] at hnd
      simp only [Duplication.orderedPairs, List.mem_append, List.mem_map] at h
      rcases h with ⟨y, hy, hxy⟩ | h
      · injection hxy with h1 h2
        subst h1; subst h2
        intro he
        exact hnd.1 (by rw [he]; exact hy)
      · exact ih hnd.2 h

theorem orderedPairs_antisymm {a b : String} :
    ∀ {l : List String}, l.Nodup → (a, b) ∈ Duplication.orderedPairs l →
      (b, a) ∉ Duplication.orderedPairs l := by
  intro l
  induction l with
  | nil => intro _ h; simp [Duplication.orderedPairs] at h
  | cons x rest ih =>
      intro hnd h hba
      rw [List.nodup_cons] at hnd
      simp only [Duplication.orderedPairs, List.mem_append, List.mem_map] at h hba
      rcases h with ⟨y, hy, hxy⟩ | h
      · injection hxy with h1 h2
        subst h1; subst h2
        rcases hba with ⟨z, hz, hz2⟩ | hba
        · injection hz2 with h3 h4
          exact hnd.1 (by rw [h3]; exact hy)
        · exact hnd.1 (mem_orderedPairs hba).2
      · rcases hba with ⟨z, hz, hz2⟩ | hba
        · injection hz2 with h3 h4
          exact hnd.1 (by rw [h3]; exact (mem_orderedPairs h).2)
        · exact ih hnd.2 h hba

theorem classifyPair_ids {m : List (String × String)} {high_threshold medium_threshold : Q}
    {include_medium : Bool} {p : String × String} {d : DuplicationPair}
    (h : Duplication.classifyPair m high_threshold medium_threshold include_medium p = some d) :
    d.entity_a = p.1 ∧ d.entity_b = p.2 := by
  simp only [Duplication.classifyPair] at h
  split at h
  · cases h
    exact ⟨rfl, rfl⟩
  · cases h

/-- C5 (amended): for every entity list and thresholds, distinct reported
pairs are never mirror images — if (A,B) is reported as a duplication pair
then A ≠ B and no (B,A) pair is also reported.  (The second half of the
original claim — invariance of the similarity score under swapping the two
signatures passed to the comparison — is false; see the counterexample.) -/
theorem claim_C5 (entities : List CodeEntity) (high_threshold medium_threshold : Q)
    (include_medium : Bool) (min_body_statements : Nat) (d d2 : DuplicationPair)
    (hd : d ∈ Duplication.detectDuplicationPairs entities high_threshold medium_threshold
      include_medium min_body_statements)
    (hd2 : d2 ∈ Duplication.detectDuplicationPairs entities high_threshold medium_threshold
      include_medium min_body_statements) :
    d.entity_a ≠ d.entity_b ∧
      ¬(d2.entity_a = d.entity_b ∧ d2.entity_b = d.entity_a) := by
  simp only [Duplication.detectDuplicationPairs] at hd hd2
  rw [mem_sortByOverlapDesc, List.mem_filterMap] at hd hd2
  obtain ⟨⟨pa, pb⟩, hp, hcl⟩ := hd
  obtain ⟨⟨pa2, pb2⟩, hp2, hcl2⟩ := hd2
  obtain ⟨ha, hb⟩ := classifyPair_ids hcl
  obtain ⟨ha2, hb2⟩ := classifyPair_ids hcl2
  have hnd : ((Duplication.signaturesDict entities min_body_statements).map
      (fun p => p.1)).Nodup := signaturesDict_keys_nodup entities min_body_statements
  constructor
  · rw [ha, hb]
    exact orderedPairs_ne hnd hp
  · rintro ⟨h1, h2⟩
    rw [ha2, hb] at h1
    rw [hb2, ha] at h2
    have h1a : pa2 = pb := h1
    have h2a : pb2 = pa := h2
    apply orderedPairs_antisymm hnd hp
    rw [← h1a, ← h2a]
    exact hp2

/-- Lower-indexed script entity of the C5 example: normalized signature
`;()+`. -/
def c5A : CodeEntity :=
  { entity_id := "A", file_path := "a.js", function_name := "f", qualified_name := "m.f",
    lineno := 1, end_lineno := 1, source := ";()+", parsed := none }

/-- Higher-indexed script entity of the C5 example: normalized signature
`)(+;`. -/
def c5B : CodeEntity :=
  { entity_id := "B", file_path := "b.js", function_name := "g", qualified_name := "m.g",
    lineno := 1, end_lineno := 1, source := ")(+;", parsed := none }

/-- C5 (counterexample to the claim as stated): the similarity score is NOT
invariant under swapping which signature is passed first to the comparison.
On the two entities whose normalized signatures are `;()+` and `)(+;` the
pair (A,B) is reported with score 0.250, computed as ratio(sigA, sigB) =
2/8; the swapped comparison ratio(sigB, sigA) yields 4/8 — a different
score — because the SequenceMatcher ratio is asymmetric in its arguments. -/
theorem claim_C5_cex :
    Duplication.detectDuplicationPairs [c5A, c5B] (qnat 0) (qnat 0) false 1 =
        [⟨"A", "B", qmk 250 1000, "high"⟩] ∧
      Duplication.sigGet (Duplication.signaturesDict [c5A, c5B] 1) "A" = ";()+" ∧
      Duplication.sigGet (Duplication.signaturesDict [c5A, c5B] 1) "B" = ")(+;" ∧
      seqMatcherRatio ";()+" ")(+;" = qmk 2 8 ∧
      seqMatcherRatio ")(+;" ";()+" = qmk 4 8 ∧
      seqMatcherRatio ";()+" ")(+;" ≠ seqMatcherRatio ")(+;" ";()+" := by
  decide

/-- Witness for C5 at a concrete reported pair. -/
theorem claim_C5_witness :
    (⟨"A", "B", qmk 250 1000, "high"⟩ : DuplicationPair) ∈
        Duplication.detectDuplicationPairs [c5A, c5B] (qnat 0) (qnat 0) false 1 ∧
      ("A" : String) ≠ "B" ∧ ¬(("A" : String) = "B" ∧ ("B" : String) = "A") :=
  ⟨by decide,
    claim_C5 [c5A, c5B] (qnat 0) (qnat 0) false 1
      ⟨"A", "B", qmk 250 1000, "high"⟩ ⟨"A", "B", qmk 250 1000, "high"⟩
      (by decide) (by decide)⟩

/-! ## C7 — minimum-body gate -/

/-- The body statement count against which `min_body_statements` is compared:
the AST body length for natively parsed entities, the lexical statement-count
estimate for script entities. -/
def bodyStatementCountOf (entity : CodeEntity) : Nat :=
  match Duplication.firstFunctionNode entity.parsed with
  | some f => f.body.length
  | none => Duplication.scriptSigStatementCount (ScriptScan.stripComments entity.source.toList)

theorem normalizedSignature_none_of_lt {entity : CodeEntity} {min_body_statements : Nat}
    (h : bodyStatementCountOf entity < min_body_statements) :
    Duplication.normalizedSignature entity min_body_statements = none := by
  unfold bodyStatementCountOf at h
  unfold Duplication.normalizedSignature
  rcases hf : Duplication.firstFunctionNode entity.parsed with _ | f
  · rw [hf] at h
    unfold Duplication.normalizedScriptSignature
    simp only [h, if_pos]
  · rw [hf] at h
    simp only [h, if_pos]

theorem mem_dictInsert_keys {m : List (String × String)} {k v x : String}
    (hx : x ∈ (Duplication.dictInsert m k v).map Prod.fst) :
    x ∈ m.map Prod.fst ∨ x = k := by
  unfold Duplication.dictInsert at hx
  split at hx
  · left
    have hkeys : (m.map (fun p => if p.1 = k then (k, v) else p)).map Prod.fst =
        m.map Prod.fst := by
      rw [List.map_map]
      apply List.map_congr_left
      intro p _
      by_cases hp1 : p.1 = k <;> simp [hp1]
    rwa [hkeys] at hx
  · rw [List.map_append] at hx
    rcases List.mem_append.mp hx with hx | hx
    · exact Or.inl hx
    · right
      simpa using hx

theorem mem_signaturesDict_keys {entities : List CodeEntity} {min_body_statements : Nat}
    {k : String}
    (hk : k ∈ (Duplication.signaturesDict entities min_body_statements).map Prod.fst) :
    ∃ e ∈ entities, e.entity_id = k ∧
      Duplication.normalizedSignature e min_body_statements ≠ none := by
  have go : ∀ (es : List CodeEntity) (m : List (String × String)),
      k ∈ ((es.foldl (fun m entity =>
          match Duplication.normalizedSignature entity min_body_statements with
          | some signature =>
              if signature ≠ "" then Duplication.dictInsert m entity.entity_id signature
              else m
          | none => m) m).map Prod.fst) →
      k ∈ m.map Prod.fst ∨ ∃ e ∈ es, e.entity_id = k ∧
        Duplication.normalizedSignature e min_body_statements ≠ none := by
    intro es
    induction es with
    | nil => intro m h; exact Or.inl h
    | cons e es ih =>
        intro m h
        rw [List.foldl_cons] at h
        rcases ih _ h with hm | ⟨e2, he2, hid, hsig⟩
        · rcases hsg : Duplication.normalizedSignature e min_body_statements with _ | s
          · rw [hsg] at hm
            exact Or.inl hm
          · rw [hsg] at hm
            by_cases hs : s = ""
            · simp only [hs, ne_eq, not_true_eq_false, if_false] at hm
              exact Or.inl hm
            · simp only [ne_eq, hs, not_false_eq_true, if_true] at hm
              rcases mem_dictInsert_keys hm with hm | hm
              · exact Or.inl hm
              · exact Or.inr ⟨e, List.mem_cons_self e es, hm.symm, by rw [hsg]; exact Option.some_ne_none s⟩
        · exact Or.inr ⟨e2, List.mem_cons_of_mem e he2, hid, hsig⟩
  rcases go entities [] hk with hm | hm
  · simp at hm
  · exact hm

/-- C7: an entity whose body statement count is below the configured minimum
never appears as either member of any returned duplication pair (entities
assumed to carry distinct ids, as the SHA-1-derived ids do). -/
theorem claim_C7 (entities : List CodeEntity) (high_threshold medium_threshold : Q)
    (include_medium : Bool) (min_body_statements : Nat) (e : CodeEntity)
    (hnd : (entities.map (fun x => x.entity_id)).Nodup)
    (he : e ∈ entities)
    (hlt : bodyStatementCountOf e < min_body_statements)
    (d : DuplicationPair)
    (hd : d ∈ Duplication.detectDuplicationPairs entities high_threshold medium_threshold
      include_medium min_body_statements) :
    d.entity_a ≠ e.entity_id ∧ d.entity_b ≠ e.entity_id := by
  simp only [Duplication.detectDuplicationPairs] at hd
  rw [mem_sortByOverlapDesc, List.mem_filterMap] at hd
  obtain ⟨⟨pa, pb⟩, hp, hcl⟩ := hd
  obtain ⟨ha, hb⟩ := classifyPair_ids hcl
  have hmem := mem_orderedPairs hp
  have hnotin : e.entity_id ∉ ((Duplication.signaturesDict entities min_body_statements).map
      (fun p => p.1)) := by
    intro hin
    obtain ⟨e2, he2, hid, hsig⟩ := mem_signaturesDict_keys hin
    have : e2 = e := List.inj_on_of_nodup_map hnd he2 he (by rw [hid])
    rw [this] at hsig
    exact hsig (normalizedSignature_none_of_lt hlt)
  constructor
  · rw [ha]
    intro hcontra
    exact hnotin (hcontra ▸ hmem.1)
  · rw [hb]
    intro hcontra
    exact hnotin (hcontra ▸ hmem.2)

/-- First C7 example entity (signature `;()+`, statement count 1). -/
def c7A : CodeEntity :=
  { entity_id := "A", file_path := "a.js", function_name := "f", qualified_name := "m.f",
    lineno := 1, end_lineno := 1, source := ";()+", parsed := none }

/-- Second C7 example entity (signature `)(+;`, statement count 1). -/
def c7B : CodeEntity :=
  { entity_id := "B", file_path := "b.js", function_name := "g", qualified_name := "m.g",
    lineno := 1, end_lineno := 1, source := ")(+;", parsed := none }

/-- Below-minimum C7 example entity: statement count 0. -/
def c7S : CodeEntity :=
  { entity_id := "S", file_path := "s.js", function_name := "h", qualified_name := "m.h",
    lineno := 1, end_lineno := 1, source := "x", parsed := none }

/-- Witness for C7 at a concrete entity list. -/
theorem claim_C7_witness :
    bodyStatementCountOf c7S < 1 ∧
      (⟨"A", "B", qmk 250 1000, "high"⟩ : DuplicationPair) ∈
        Duplication.detectDuplicationPairs [c7A, c7B, c7S] (qnat 0) (qnat 0) false 1 ∧
      ("A" : String) ≠ "S" ∧ ("B" : String) ≠ "S" :=
  ⟨by decide, by decide,
    claim_C7 [c7A, c7B, c7S] (qnat 0) (qnat 0) false 1 c7S (by decide)
      (List.Mem.tail _ (List.Mem.tail _ (List.Mem.head _))) (by decide)
      ⟨"A", "B", qmk 250 1000, "high"⟩ (by decide)⟩

/-! ## C8 — threshold monotonicity -/

theorem scoreEntity_isSome_mono {entity : CodeEntity}
    {git_evidence : Option GitProvenanceEvidence} {t1 t2 : Q} (h : Q.le t1 t2)
    (hs : (Provenance.scoreEntity entity t2 git_evidence).isSome) :
    (Provenance.scoreEntity entity t1 git_evidence).isSome := by
  simp only [Provenance.scoreEntity] at hs ⊢
  split at hs
  · simp at hs
  · rename_i hlt2
    rw [if_neg (fun hlt1 => hlt2 (Q.lt_of_lt_of_le hlt1 h))]
    simp

theorem detectAiSignals_count_mono (entities : List CodeEntity)
    (git_evidence_by_entity : Option (List (String × GitProvenanceEvidence)))
    {t1 t2 : Q} (h : Q.le t1 t2) :
    (Provenance.detectAiSignals entities t2 git_evidence_by_entity).length ≤
      (Provenance.detectAiSignals entities t1 git_evidence_by_entity).length := by
  unfold Provenance.detectAiSignals
  apply length_filterMap_mono
  intro e hs
  exact scoreEntity_isSome_mono h hs

theorem classifyPair_isSome_iff (m : List (String × String)) (hth medium_threshold : Q)
    (include_medium : Bool) (p : String × String) :
    (Duplication.classifyPair m hth medium_threshold include_medium p).isSome ↔
      (Q.ge (seqMatcherRatio (Duplication.sigGet m p.1) (Duplication.sigGet m p.2)) hth ∨
        (include_medium = true ∧
          Q.ge (seqMatcherRatio (Duplication.sigGet m p.1) (Duplication.sigGet m p.2))
            medium_threshold)) := by
  simp only [Duplication.classifyPair]
  by_cases c1 : Q.ge (seqMatcherRatio (Duplication.sigGet m p.1) (Duplication.sigGet m p.2)) hth
  · simp [c1]
  · by_cases c2 : include_medium = true ∧
        Q.ge (seqMatcherRatio (Duplication.sigGet m p.1) (Duplication.sigGet m p.2))
          medium_threshold
    · simp [c1, c2]
    · simp [c1, c2]

theorem classifyPair_isSome_mono {m : List (String × String)} {medium_threshold : Q}
    {include_medium : Bool} {p : String × String} {h1 h2 : Q} (hle : Q.le h1 h2)
    (hs : (Duplication.classifyPair m h2 medium_threshold include_medium p).isSome) :
    (Duplication.classifyPair m h1 medium_threshold include_medium p).isSome := by
  rw [classifyPair_isSome_iff] at hs
  rw [classifyPair_isSome_iff]
  rcases hs with hs | hs
  · exact Or.inl (Q.le_trans hle hs)
  · exact Or.inr hs

theorem detectDuplicationPairs_count_mono (entities : List CodeEntity)
    (medium_threshold : Q) (include_medium : Bool) (min_body_statements : Nat)
    {h1 h2 : Q} (hle : Q.le h1 h2) :
    (Duplication.detectDuplicationPairs entities h2 medium_threshold include_medium
        min_body_statements).length ≤
      (Duplication.detectDuplicationPairs entities h1 medium_threshold include_medium
        min_body_statements).length := by
  simp only [Duplication.detectDuplicationPairs]
  rw [length_sortByOverlapDesc, length_sortByOverlapDesc]
  apply length_filterMap_mono
  intro p hp
  exact classifyPair_isSome_mono hle hp

/-- C8: for a fixed entity list and fixed other parameters, raising the
provenance reporting threshold never increases the number of returned
provenance signals, and raising the high duplication threshold never
increases the number of returned duplication pairs. -/
theorem claim_C8 (entities : List CodeEntity)
    (git_evidence_by_entity : Option (List (String × GitProvenanceEvidence)))
    (medium_threshold : Q) (include_medium : Bool) (min_body_statements : Nat)
    (t1 t2 high1 high2 : Q) (hprov : Q.le t1 t2) (hdup : Q.le high1 high2) :
    (Provenance.detectAiSignals entities t2 git_evidence_by_entity).length ≤
        (Provenance.detectAiSignals entities t1 git_evidence_by_entity).length ∧
      (Duplication.detectDuplicationPairs entities high2 medium_threshold include_medium
          min_body_statements).length ≤
        (Duplication.detectDuplicationPairs entities high1 medium_threshold include_medium
          min_body_statements).length :=
  ⟨detectAiSignals_count_mono entities git_evidence_by_entity hprov,
    detectDuplicationPairs_count_mono entities medium_threshold include_medium
      min_body_statements hdup⟩

/-- First C8 example entity. -/
def c8A : CodeEntity :=
  { entity_id := "A", file_path := "a.js", function_name := "f", qualified_name := "m.f",
    lineno := 1, end_lineno := 1, source := ";()+", parsed := none }

/-- Second C8 example entity. -/
def c8B : CodeEntity :=
  { entity_id := "B", file_path := "b.js", function_name := "g", qualified_name := "m.g",
    lineno := 1, end_lineno := 1, source := ")(+;", parsed := none }

/-- Witness for C8 at a concrete entity list and threshold pairs. -/
theorem claim_C8_witness :
    Q.le (qnat 0) (qmk 1 2) ∧
      ((Provenance.detectAiSignals [c8A, c8B] (qmk 1 2) none).length ≤
          (Provenance.detectAiSignals [c8A, c8B] (qnat 0) none).length ∧
        (Duplication.detectDuplicationPairs [c8A, c8B] (qmk 1 2) (qnat 0) false
            1).length ≤
          (Duplication.detectDuplicationPairs [c8A, c8B] (qnat 0) (qnat 0) false
            1).length) :=
  ⟨by decide,
    claim_C8 [c8A, c8B] none (qnat 0) false 1 (qnat 0) (qmk 1 2) (qnat 0) (qmk 1 2)
      (by decide) (by decide)⟩

/-! ## C6 — scanner entity span invariant -/

set_option maxHeartbeats 1000000 in
theorem fmbGo_range (cs : List Char) : ∀ (fuel index : Nat) (depth : Int)
    (s1 s2 s3 s4 s5 : Bool) (r : Int),
    Scanner.findMatchingBraceGo cs fuel index depth s1 s2 s3 s4 s5 = r →
    0 ≤ r → (index : Int) ≤ r ∧ r < (cs.length : Int) := by
  intro fuel
  induction fuel with
  | zero =>
      intro index depth s1 s2 s3 s4 s5 r h h0
      simp only [Scanner.findMatchingBraceGo] at h
      omega
  | succ fuel ih =>
      intro index depth s1 s2 s3 s4 s5 r h h0
      rcases hdrop : cs.drop index with _ | ⟨c, tail⟩
      · simp only [Scanner.findMatchingBraceGo, hdrop] at h
        omega
      · have hlen : index < cs.length := by
          by_contra hge
          rw [List.drop_eq_nil_of_le (Nat.le_of_not_lt hge)] at hdrop
          cases hdrop
        simp only [Scanner.findMatchingBraceGo, hdrop] at h
        have key : ∀ (idx2 : Nat) (depth2 : Int) (t1 t2 t3 t4 t5 : Bool),
            index ≤ idx2 → Scanner.findMatchingBraceGo cs fuel idx2 depth2 t1 t2 t3 t4 t5 = r →
            (index : Int) ≤ r ∧ r < (cs.length : Int) := by
          intro idx2 depth2 t1 t2 t3 t4 t5 hle heq
          obtain ⟨h1, h2⟩ := ih idx2 depth2 t1 t2 t3 t4 t5 r heq h0
          exact ⟨by omega, h2⟩
        cases s4 with
        | true =>
            rw [if_pos rfl] at h
            exact key _ _ _ _ _ _ _ (by omega) h
        | false =>
            rw [if_neg (by simp)] at h
            cases s5 with
            | true =>
                rw [if_pos rfl] at h
                by_cases hc1 : c = '*' ∧ tail.headD (Char.ofNat 0) = '/'
                · rw [if_pos hc1] at h
                  exact key _ _ _ _ _ _ _ (by omega) h
                · rw [if_neg hc1] at h
                  exact key _ _ _ _ _ _ _ (by omega) h
            | false =>
                rw [if_neg (by simp)] at h
                cases s1 with
                | true =>
                    rw [if_pos rfl] at h
                    by_cases hc2 : c = '\\'
                    · rw [if_pos hc2] at h
                      exact key _ _ _ _ _ _ _ (by omega) h
                    · rw [if_neg hc2] at h
                      exact key _ _ _ _ _ _ _ (by omega) h
                | false =>
                    rw [if_neg (by simp)] at h
                    cases s2 with
                    | true =>
                        rw [if_pos rfl] at h
                        by_cases hc3 : c = '\\'
                        · rw [if_pos hc3] at h
                          exact key _ _ _ _ _ _ _ (by omega) h
                        · rw [if_neg hc3] at h
                          exact key _ _ _ _ _ _ _ (by omega) h
                    | false =>
                        rw [if_neg (by simp)] at h
                        cases s3 with
                        | true =>
                            rw [if_pos rfl] at h
                            by_cases hc4 : c = '\\'
                            · rw [if_pos hc4] at h
                              exact key _ _ _ _ _ _ _ (by omega) h
                            · rw [if_neg hc4] at h
                              exact key _ _ _ _ _ _ _ (by omega) h
                        | false =>
                            rw [if_neg (by simp)] at h
                            by_cases hc5 : c = '/' ∧ tail.headD (Char.ofNat 0) = '/'
                            · rw [if_pos hc5] at h
                              exact key _ _ _ _ _ _ _ (by omega) h
                            · rw [if_neg hc5] at h
                              by_cases hc6 : c = '/' ∧ tail.headD (Char.ofNat 0) = '*'
                              · rw [if_pos hc6] at h
                                exact key _ _ _ _ _ _ _ (by omega) h
                              · rw [if_neg hc6] at h
                                by_cases hc7 : c = apos
                                · rw [if_pos hc7] at h
                                  exact key _ _ _ _ _ _ _ (by omega) h
                                · rw [if_neg hc7] at h
                                  by_cases hc8 : c = '"'
                                  · rw [if_pos hc8] at h
                                    exact key _ _ _ _ _ _ _ (by omega) h
                                  · rw [if_neg hc8] at h
                                    by_cases hc9 : c = backquote
                                    · rw [if_pos hc9] at h
                                      exact key _ _ _ _ _ _ _ (by omega) h
                                    · rw [if_neg hc9] at h
                                      by_cases hc10 : c = lbrace
                                      · rw [if_pos hc10] at h
                                        exact key _ _ _ _ _ _ _ (by omega) h
                                      · rw [if_neg hc10] at h
                                        by_cases hc11 : c = rbrace
                                        · rw [if_pos hc11] at h
                                          by_cases hd : depth - 1 = 0
                                          · rw [if_pos hd] at h
                                            exact ⟨by omega, by omega⟩
                                          · rw [if_neg hd] at h
                                            exact key _ _ _ _ _ _ _ (by omega) h
                                        · rw [if_neg hc11] at h
                                          exact key _ _ _ _ _ _ _ (by omega) h

theorem findMatchingBrace_range {cs : List Char} {open_index : Nat} {r : Int}
    (heq : Scanner.findMatchingBrace cs open_index = r) (h : 0 ≤ r) :
    (open_index : Int) ≤ r ∧ r < (cs.length : Int) :=
  fmbGo_range cs (cs.length + 1) open_index 0 false false false false false r heq h

theorem countNl_mono (cs : List Char) {a b : Nat} (h : a ≤ b) :
    Scanner.countNl cs a ≤ Scanner.countNl cs b := by
  unfold Scanner.countNl
  have htake : cs.take a = (cs.take b).take a := by
    rw [List.take_take, Nat.min_eq_left h]
  rw [htake]
  exact List.Sublist.countP_le _ (List.take_sublist a (cs.take b))

/-- The amended C6 span property (stated from the spec sentence, to be
compared with the scanner's construction): the entity source is the exact
character span of the file from some position on line `lineno` through
some in-range position on line `end_lineno`, inclusive. -/
def scriptEntitySpan (cs : List Char) (e : CodeEntity) : Prop :=
  ∃ start close : Nat, start ≤ close ∧ close < cs.length ∧
    e.lineno = Scanner.countNl cs start + 1 ∧
    e.end_lineno = Scanner.countNl cs close + 1 ∧
    e.source = String.mk ((cs.drop start).take (close + 1 - start))

theorem scriptStep_preserves (cs : List Char) (file_path module_name : String)
    (acc : List CodeEntity × List Nat) (m : Nat × String × Nat)
    (hacc : ∀ e ∈ acc.1, scriptEntitySpan cs e) :
    ∀ e ∈ (Scanner.scriptStep cs file_path module_name acc m).1, scriptEntitySpan cs e := by
  intro e he
  simp only [Scanner.scriptStep] at he
  split at he
  · exact hacc e he
  · split at he
    · exact hacc e (by simpa using he)
    · rename_i offset hoff
      split at he
      · exact hacc e (by simpa using he)
      · rename_i hclose
        simp only [List.mem_append, List.mem_singleton] at he
        rcases he with h | h
        · exact hacc e h
        · subst h
          have h0 : (0 : Int) ≤ Scanner.findMatchingBrace cs (m.1 + offset) := by omega
          obtain ⟨hge, hlt⟩ := findMatchingBrace_range rfl h0
          refine ⟨m.1, (Scanner.findMatchingBrace cs (m.1 + offset)).toNat,
            by omega, by omega, rfl, rfl, rfl⟩

theorem matches_foldl_preserves (cs : List Char) (file_path module_name : String) :
    ∀ (ms : List (Nat × String × Nat)) (acc : List CodeEntity × List Nat),
      (∀ e ∈ acc.1, scriptEntitySpan cs e) →
      ∀ e ∈ (ms.foldl (Scanner.scriptStep cs file_path module_name) acc).1,
        scriptEntitySpan cs e := by
  intro ms
  induction ms with
  | nil => intro acc hacc e he; exact hacc e he
  | cons m ms ih =>
      intro acc hacc e he
      rw [List.foldl_cons] at he
      exact ih _ (scriptStep_preserves cs file_path module_name acc m hacc) e he

theorem patterns_foldl_preserves (cs : List Char) (file_path module_name : String) :
    ∀ (pats : List (List Char → Option (String × List Char)))
      (acc : List CodeEntity × List Nat),
      (∀ e ∈ acc.1, scriptEntitySpan cs e) →
      ∀ e ∈ (pats.foldl
          (fun acc pat =>
            (Scanner.finditer pat cs).foldl (Scanner.scriptStep cs file_path module_name) acc)
          acc).1,
        scriptEntitySpan cs e := by
  intro pats
  induction pats with
  | nil => intro acc hacc e he; exact hacc e he
  | cons pat pats ih =>
      intro acc hacc e he
      rw [List.foldl_cons] at he
      exact ih _ (matches_foldl_preserves cs file_path module_name _ acc hacc) e he

/-- C6 (amended): every entity produced by the script scanner satisfies
end line ≥ start line, and its source is the exact character span of the
original file running from the match start (a position on line `lineno`)
through the matching closing brace (an in-range position on line
`end_lineno`).  (The stronger reading of the original claim — that the
source equals the full text of lines [start, end] — is false: the span is
cut at the closing brace, not at the line end; see the counterexample.) -/
theorem claim_C6 (file_path module_name source_text : String) (e : CodeEntity)
    (he : e ∈ Scanner.extractScriptEntities file_path module_name source_text) :
    e.lineno ≤ e.end_lineno ∧ scriptEntitySpan source_text.toList e := by
  simp only [Scanner.extractScriptEntities] at he
  replace he := mem_sortByLineno he
  have hspan : scriptEntitySpan source_text.toList e :=
    patterns_foldl_preserves source_text.toList file_path module_name
      Scanner.scriptFunctionPatterns ([], []) (by simp) e he
  refine ⟨?_, hspan⟩
  obtain ⟨start, close, hsc, _, hl, he2, _⟩ := hspan
  rw [hl, he2]
  have := countNl_mono source_text.toList hsc
  omega

/-- The entity of the C6 example. -/
def c6Entity : CodeEntity :=
  { entity_id := "a.js:m.f:1", file_path := "a.js", function_name := "f",
    qualified_name := "m.f", lineno := 1, end_lineno := 1,
    source := "function f() \x7b return 1; \x7d", parsed := none }

/-- C6 (counterexample to the claim as stated): in the one-line file
`function f() \x7b return 1; \x7d tail` the scanner produces one entity with
lineno = end_lineno = 1 whose source stops at the closing brace, while the
text of lines [1, 1] of the file is the whole line including ` tail` — so
the source does not equal the text of lines [start line, end line]. -/
theorem claim_C6_cex :
    (Scanner.extractScriptEntities "a.js" "m"
        "function f() \x7b return 1; \x7d tail").map
        (fun e => (e.lineno, e.end_lineno, e.source)) =
      [(1, 1, "function f() \x7b return 1; \x7d")] ∧
    Scanner.sliceSource "function f() \x7b return 1; \x7d tail" 1 1 =
      "function f() \x7b return 1; \x7d tail" ∧
    ("function f() \x7b return 1; \x7d" : String) ≠
      "function f() \x7b return 1; \x7d tail" := by
  refine ⟨?_, ?_, ?_⟩
  · rfl
  · rfl
  · decide

/-- Witness for C6 at the concrete one-entity file. -/
theorem claim_C6_witness :
    c6Entity.lineno ≤ c6Entity.end_lineno ∧
      scriptEntitySpan ("function f() \x7b return 1; \x7d tail".toList) c6Entity :=
  claim_C6 "a.js" "m" "function f() \x7b return 1; \x7d tail" c6Entity
    (by
      show c6Entity ∈ [c6Entity]
      exact List.mem_singleton_self c6Entity)

end AiWaste
